import Mathlib

/-!
Verification development for the ErisPulse Telegram adapter.

The inbound converter (`TelegramAdapter/Converter.py`, class
`TelegramConverter`) and the outbound segment translator
(`TelegramAdapter/Core.py`, `Send._convert_ob12_to_telegram`) are shallowly
embedded here.

Modeling conventions:
- Python values are modeled by the inductive type `JVal`; Python dicts are
  insertion-ordered association lists `List (String × JVal)` (keys unique in
  practice, lookups take the first occurrence, assignment updates in place or
  appends).
- A Python exception (`KeyError`, `TypeError`, `AttributeError`, ...) is
  modeled as `Except.error ()`; code paths that cannot raise are pure.
  Because an exception aborts the whole conversion and partially mutated
  local state is never observable, pure reads may be reordered relative to
  dict writes without changing observable behavior; handlers therefore
  compute their field values first and then apply all writes in source
  order via `setMany`.
- `time.time()` is passed in as an explicit `now : Int` parameter; the bot
  token is an explicit `token : String` parameter.
- Strings are sequences of Unicode code points in both Python and Lean, so
  Python `len`/slicing on `str` is modeled on `String.toList`.  Python
  numeric-literal niceties (underscore separators in `int(...)`, non-ASCII
  digits in `str.isdigit`) are not modeled.
-/

namespace TGAdapter

/-- Model of a Python/JSON value as delivered by the Telegram transport. -/
inductive JVal where
  | jnull
  | jbool (b : Bool)
  | jint (n : Int)
  | jstr (s : String)
  | jarr (elems : List JVal)
  | jobj (fields : List (String × JVal))

/-- Python `v == "lit"` against a string literal (False on non-strings). -/
def isStr (v : JVal) (s : String) : Bool :=
  match v with
  | .jstr t => t = s
  | _ => false

/-- Python `v is None`. -/
def isNull (v : JVal) : Bool :=
  match v with
  | .jnull => true
  | _ => false

/-- Lookup in an insertion-ordered dict (first occurrence wins). -/
def lookupKV : List (String × JVal) → String → Option JVal
  | [], _ => none
  | (k, v) :: rest, key => if k = key then some v else lookupKV rest key

/-- Python `d.get(key, default)` on a dict known to be a dict. -/
def lookupD (fields : List (String × JVal)) (key : String) (d : JVal) : JVal :=
  (lookupKV fields key).getD d

/-- Python `key in d` on a dict. -/
def hasKey (fields : List (String × JVal)) (key : String) : Bool :=
  (lookupKV fields key).isSome

/-- Python dict assignment `d[key] = v`: update in place or append. -/
def setK : List (String × JVal) → String → JVal → List (String × JVal)
  | [], key, v => [(key, v)]
  | (k, w) :: rest, key, v =>
    if k = key then (k, v) :: rest else (k, w) :: setK rest key v

/-- A sequence of dict assignments, applied left to right. -/
def setMany (d : List (String × JVal)) (us : List (String × JVal)) :
    List (String × JVal) :=
  us.foldl (fun acc p => setK acc p.1 p.2) d

/-- Python truthiness of a value. -/
def pyTruthy : JVal → Bool
  | .jnull => false
  | .jbool b => b
  | .jint n => n != 0
  | .jstr s => s != ""
  | .jarr xs => !xs.isEmpty
  | .jobj fs => !fs.isEmpty

/-- Characters stripped by Python `str.strip()` (the ASCII whitespace set). -/
def pyWhitespaceChars : List Char :=
  [' ', '\t', '\n', '\r', Char.ofNat 11, Char.ofNat 12]

/-- Python `str.strip()`. -/
def pyStrip (s : String) : String :=
  let ws := fun c => pyWhitespaceChars.contains c
  String.mk (((s.toList.dropWhile ws).reverse.dropWhile ws).reverse)

/-- Python `repr` for non-string scalars matches `str`; containers print
their elements with quoted strings.  The fine points of Python string
escaping inside container reprs are not modeled (never claim-relevant). -/
def pyRepr : JVal → String
  | .jnull => "None"
  | .jbool b => if b then "True" else "False"
  | .jint n => toString n
  | .jstr s => "\x27" ++ s ++ "\x27"
  | .jarr xs => "[" ++ String.intercalate ", " (xs.attach.map (fun x => pyRepr x.1)) ++ "]"
  | .jobj fs => "\x7b" ++
      String.intercalate ", "
        (fs.attach.map (fun p => "\x27" ++ p.1.1 ++ "\x27: " ++ pyRepr p.1.2)) ++ "\x7d"
decreasing_by
  · have := List.sizeOf_lt_of_mem x.2; simp at this ⊢; omega
  · obtain ⟨⟨k, v⟩, hm⟩ := p
    have := List.sizeOf_lt_of_mem hm
    simp at this ⊢
    omega

/-- Python `str(v)`. -/
def pyStr : JVal → String
  | .jnull => "None"
  | .jbool b => if b then "True" else "False"
  | .jint n => toString n
  | .jstr s => s
  | .jarr xs => pyRepr (.jarr xs)
  | .jobj fs => pyRepr (.jobj fs)

/-- Python `v.get(key, default)` where `v` may not be a dict
(`AttributeError` on non-dicts). -/
def pyGetD (v : JVal) (key : String) (d : JVal) : Except Unit JVal :=
  match v with
  | .jobj fields => .ok (lookupD fields key d)
  | _ => .error ()

/-- Python `v[key]` with a string key (`KeyError` when missing, `TypeError`
on non-dicts). -/
def pyGetItem (v : JVal) (key : String) : Except Unit JVal :=
  match v with
  | .jobj fields =>
    match lookupKV fields key with
    | some x => .ok x
    | none => .error ()
  | _ => .error ()

/-- Python `v[-1]`: last element of a list, last character of a string;
anything else raises (dict keys here are strings, so `d[-1]` is a
`KeyError`). -/
def pyLastElem (v : JVal) : Except Unit JVal :=
  match v with
  | .jarr xs =>
    match xs.getLast? with
    | some x => .ok x
    | none => .error ()
  | .jstr s =>
    match s.toList.getLast? with
    | some c => .ok (.jstr (String.singleton c))
    | none => .error ()
  | _ => .error ()

/-- Python `len(v)` (`TypeError` on unsized values). -/
def pyLen (v : JVal) : Except Unit Int :=
  match v with
  | .jstr s => .ok (Int.ofNat s.toList.length)
  | .jarr xs => .ok (Int.ofNat xs.length)
  | .jobj fs => .ok (Int.ofNat fs.length)
  | _ => .error ()

/-- A value usable in Python integer arithmetic and comparisons
(`int` and `bool`; anything else raises `TypeError` there). -/
def pyToIntNum : JVal → Except Unit Int
  | .jint n => .ok n
  | .jbool b => .ok (if b then 1 else 0)
  | _ => .error ()

/-- Python slice index normalization for `s[a:b]`. -/
def pySliceIdx (len : Int) (i : Int) : Nat :=
  if i < 0 then (max 0 (len + i)).toNat else (min i len).toNat

/-- Python string slicing `s[a:b]` (code points, negative indices wrap). -/
def pySliceStr (s : String) (a b : Int) : String :=
  let cs := s.toList
  let n : Int := Int.ofNat cs.length
  let a' := pySliceIdx n a
  let b' := pySliceIdx n b
  String.mk ((cs.drop a').take (b' - a'))

/-- Python slicing `v[a:b]` on strings and lists (`TypeError` otherwise). -/
def pySlice (v : JVal) (a b : Int) : Except Unit JVal :=
  match v with
  | .jstr s => .ok (.jstr (pySliceStr s a b))
  | .jarr xs =>
    let n : Int := Int.ofNat xs.length
    let a' := pySliceIdx n a
    let b' := pySliceIdx n b
    .ok (.jarr ((xs.drop a').take (b' - a')))
  | _ => .error ()

/-- Python iteration `for x in v`: list elements, dict keys, string
characters; anything else raises `TypeError`. -/
def pyIterate (v : JVal) : Except Unit (List JVal) :=
  match v with
  | .jarr xs => .ok xs
  | .jobj fields => .ok (fields.map (fun p => JVal.jstr p.1))
  | .jstr s => .ok (s.toList.map (fun c => JVal.jstr (String.singleton c)))
  | _ => .error ()

/-- Python `str.isdigit` (ASCII digits; non-empty). -/
def pyIsDigit (s : String) : Bool :=
  s ≠ "" && s.toList.all Char.isDigit

/-- Decimal value of a digit sequence. -/
def digitsToNat (cs : List Char) : Nat :=
  cs.foldl (fun acc c => acc * 10 + (c.toNat - 48)) 0

/-- Parse of an optional sign followed by ASCII digits, for `int(str)`. -/
def parseSignedDigits (cs : List Char) : Except Unit Int :=
  match cs with
  | [] => .error ()
  | c :: rest =>
    let (sign, ds) : Int × List Char :=
      if c = Char.ofNat 45 then (-1, rest)
      else if c = Char.ofNat 43 then (1, rest) else (1, c :: rest)
    if !ds.isEmpty && ds.all Char.isDigit then
      .ok (sign * Int.ofNat (digitsToNat ds))
    else .error ()

/-- Python `int(v)`: identity on ints, 0/1 on bools, digit parse (with
optional sign and surrounding whitespace) on strings; raises otherwise. -/
def pyToInt : JVal → Except Unit Int
  | .jint n => .ok n
  | .jbool b => .ok (if b then 1 else 0)
  | .jstr s => parseSignedDigits (pyStrip s).toList
  | _ => .error ()

/-- Python `"sep".join(parts)`: raises unless every part is a string. -/
def pyJoin (sep : String) (parts : List JVal) : Except Unit String :=
  match parts.mapM (fun p => match p with | .jstr s => some s | _ => none) with
  | some ss => .ok (String.intercalate sep ss)
  | none => .error ()

/-- A normalized event: the OneBot12 dict built by the converter. -/
abbrev Event := List (String × JVal)

/-! ## Inbound converter (`TelegramAdapter/Converter.py`) -/

/-- Converter.py `TelegramConverter._event_type_map`, in declaration order
(Python dicts preserve insertion order). -/
def eventTypeMap : List (String × String) :=
  [("message", "message"),
   ("edited_message", "message"),
   ("channel_post", "message"),
   ("edited_channel_post", "message"),
   ("inline_query", "request"),
   ("chosen_inline_result", "notice"),
   ("callback_query", "notice"),
   ("shipping_query", "request"),
   ("pre_checkout_query", "request"),
   ("poll", "notice"),
   ("poll_answer", "notice"),
   ("my_chat_member", "notice"),
   ("chat_member", "notice"),
   ("chat_join_request", "request")]

/-- Converter.py `_detect_event_type`: first map entry whose Telegram key is
present in the update wins; `(none, "unknown")` when none is. -/
def detectEventType (raw : List (String × JVal)) : Option String × String :=
  match eventTypeMap.find? (fun p => hasKey raw p.1) with
  | some p => (some p.2, p.1)
  | none => (none, "unknown")

/-- Converter.py `_get_user_name` on a dict argument (pure part). -/
def getUserNameObj (u : List (String × JVal)) : JVal :=
  let username := lookupD u "username" (.jstr "")
  if pyTruthy username then username
  else
    let fullName := pyStrip
      (pyStr (lookupD u "first_name" (.jstr "")) ++ " " ++
       pyStr (lookupD u "last_name" (.jstr "")))
    if fullName = "" then .jstr (pyStr (lookupD u "id" (.jstr "")))
    else .jstr fullName

/-- Converter.py `_get_user_name`: raises (`AttributeError`) when the user
record is not a dict.  Note the Python code returns the `username` value
as-is when it is truthy, whatever its type. -/
def getUserName (user : JVal) : Except Unit JVal :=
  match user with
  | .jobj u => .ok (getUserNameObj u)
  | _ => .error ()

/-- Converter.py `_build_file_url`. -/
def buildFileUrl (token : String) (filePath : JVal) : JVal :=
  if pyTruthy filePath then
    .jstr ("https://api.telegram.org/file/bot" ++ token ++ "/" ++ pyStr filePath)
  else .jnull

/-- Builds one message segment dict `{"type": ty, "data": {...}}`. -/
def mkSegment (ty : String) (data : List (String × JVal)) : JVal :=
  .jobj [("type", .jstr ty), ("data", .jobj data)]

/-- Converter.py `_parse_message_content`, text step: the primary `text`
field if truthy, else `caption`; a text segment only when truthy. -/
def textSegments (m : List (String × JVal)) : List JVal :=
  let text :=
    if pyTruthy (lookupD m "text" .jnull) then lookupD m "text" .jnull
    else lookupD m "caption" (.jstr "")
  if pyTruthy text then [mkSegment "text" [("text", text)]] else []

/-- Converter.py `_parse_message_content`, photo step: highest-resolution
representation (`photo[-1]`), `file_id` indexed directly (KeyError when
missing), `file_path` read with a `None` default. -/
def photoSegments (token : String) (m : List (String × JVal)) :
    Except Unit (List JVal) :=
  if hasKey m "photo" then do
    let photo ← pyLastElem (lookupD m "photo" .jnull)
    let fid ← pyGetItem photo "file_id"
    let fp ← pyGetD photo "file_path" .jnull
    .ok [mkSegment "image"
      [("file_id", fid), ("url", buildFileUrl token fp), ("telegram_file", photo)]]
  else .ok []

/-- Converter.py `_parse_message_content`, video step. -/
def videoSegments (token : String) (m : List (String × JVal)) :
    Except Unit (List JVal) :=
  if hasKey m "video" then do
    let fid ← pyGetItem (lookupD m "video" .jnull) "file_id"
    let fp ← pyGetD (lookupD m "video" .jnull) "file_path" .jnull
    let dur ← pyGetD (lookupD m "video" .jnull) "duration" (.jint 0)
    let w ← pyGetD (lookupD m "video" .jnull) "width" (.jint 0)
    let h ← pyGetD (lookupD m "video" .jnull) "height" (.jint 0)
    .ok [mkSegment "video"
      [("file_id", fid), ("url", buildFileUrl token fp), ("duration", dur),
       ("width", w), ("height", h)]]
  else .ok []

/-- Converter.py `_parse_message_content`, voice step. -/
def voiceSegments (token : String) (m : List (String × JVal)) :
    Except Unit (List JVal) :=
  if hasKey m "voice" then do
    let fid ← pyGetItem (lookupD m "voice" .jnull) "file_id"
    let fp ← pyGetD (lookupD m "voice" .jnull) "file_path" .jnull
    let dur ← pyGetD (lookupD m "voice" .jnull) "duration" (.jint 0)
    .ok [mkSegment "voice"
      [("file_id", fid), ("url", buildFileUrl token fp), ("duration", dur)]]
  else .ok []

/-- Converter.py `_parse_message_content`, audio step. -/
def audioSegments (token : String) (m : List (String × JVal)) :
    Except Unit (List JVal) :=
  if hasKey m "audio" then do
    let fid ← pyGetItem (lookupD m "audio" .jnull) "file_id"
    let fp ← pyGetD (lookupD m "audio" .jnull) "file_path" .jnull
    let dur ← pyGetD (lookupD m "audio" .jnull) "duration" (.jint 0)
    let title ← pyGetD (lookupD m "audio" .jnull) "title" (.jstr "")
    let performer ← pyGetD (lookupD m "audio" .jnull) "performer" (.jstr "")
    .ok [mkSegment "audio"
      [("file_id", fid), ("url", buildFileUrl token fp), ("duration", dur),
       ("title", title), ("performer", performer)]]
  else .ok []

/-- Converter.py `_parse_message_content`, document step. -/
def documentSegments (token : String) (m : List (String × JVal)) :
    Except Unit (List JVal) :=
  if hasKey m "document" then do
    let fid ← pyGetItem (lookupD m "document" .jnull) "file_id"
    let fp ← pyGetD (lookupD m "document" .jnull) "file_path" .jnull
    let fname ← pyGetD (lookupD m "document" .jnull) "file_name" (.jstr "")
    let fsize ← pyGetD (lookupD m "document" .jnull) "file_size" (.jint 0)
    let mime ← pyGetD (lookupD m "document" .jnull) "mime_type" (.jstr "")
    .ok [mkSegment "file"
      [("file_id", fid), ("url", buildFileUrl token fp), ("file_name", fname),
       ("file_size", fsize), ("mime_type", mime)]]
  else .ok []

/-- Converter.py `_parse_message_content`, sticker step (an image segment
with the `telegram_type` marker). -/
def stickerSegments (token : String) (m : List (String × JVal)) :
    Except Unit (List JVal) :=
  if hasKey m "sticker" then do
    let fid ← pyGetItem (lookupD m "sticker" .jnull) "file_id"
    let fp ← pyGetD (lookupD m "sticker" .jnull) "file_path" .jnull
    .ok [mkSegment "image"
      [("file_id", fid), ("url", buildFileUrl token fp),
       ("telegram_type", .jstr "sticker"),
       ("telegram_file", lookupD m "sticker" .jnull)]]
  else .ok []

/-- Converter.py `_parse_message_content`, reply step: `message_id` indexed
directly on the quoted message; the result is inserted at index 0. -/
def withReplySegment (m : List (String × JVal)) (segments : List JVal) :
    Except Unit (List JVal) :=
  if hasKey m "reply_to_message" then do
    let mid ← pyGetItem (lookupD m "reply_to_message" .jnull) "message_id"
    let fromUser ← pyGetD (lookupD m "reply_to_message" .jnull) "from" (.jobj [])
    let uid ← pyGetD fromUser "id" (.jstr "")
    .ok (mkSegment "reply"
      [("message_id", .jstr (pyStr mid)), ("user_id", .jstr (pyStr uid))] :: segments)
  else .ok segments

/-- Converter.py `_parse_mentions`, body for one entity annotation. -/
def mentionOfEntity (text : JVal) (entity : JVal) : Except Unit (List JVal) := do
  let etype ← pyGetItem entity "type"
  if isStr etype "mention" then do
    let offv ← pyGetItem entity "offset"
    let lenv ← pyGetItem entity "length"
    let off ← pyToIntNum offv
    let len ← pyToIntNum lenv
    let tlen ← pyLen text
    if off + len ≤ tlen then do
      let mentionText ← pySlice text off (off + len)
      .ok [mkSegment "at" [("name", mentionText)]]
    else .ok []
  else if isStr etype "text_mention" then do
    let user ← pyGetD entity "user" (.jobj [])
    let uid ← pyGetD user "id" (.jstr "")
    let name ← getUserName user
    .ok [mkSegment "at" [("user_id", .jstr (pyStr uid)), ("name", name)]]
  else .ok []

/-- Converter.py `_parse_mentions`: the list of mention segments appended to
the segment sequence (the Python code mutates the caller's list; it never
reads it, so modeling it as the appended suffix is faithful). -/
def parseMentionsList (message : JVal) : Except Unit (List JVal) := do
  let entities ← pyGetD message "entities" (.jarr [])
  let text ← pyGetD message "text" (.jstr "")
  let items ← pyIterate entities
  items.foldlM (fun acc entity => do
    let segs ← mentionOfEntity text entity
    pure (acc ++ segs)) []

/-- Converter.py `_parse_message_content`: content segments in the fixed
source order, the reply segment inserted at index 0, mention segments
appended last. -/
def parseMessageContent (token : String) (message : JVal) :
    Except Unit (List JVal) :=
  match message with
  | .jobj m => do
    let ts := textSegments m
    let ps ← photoSegments token m
    let vs ← videoSegments token m
    let vos ← voiceSegments token m
    let aus ← audioSegments token m
    let ds ← documentSegments token m
    let ss ← stickerSegments token m
    let content := ts ++ ps ++ vs ++ vos ++ aus ++ ds ++ ss
    let withReply ← withReplySegment m content
    let mentions ← parseMentionsList (.jobj m)
    .ok (withReply ++ mentions)
  | _ => .error ()

/-- Converter.py `_generate_alt_message`, rendering of one segment (empty
list when the segment type has no rendering). -/
def altToken (seg : JVal) : Except Unit (List JVal) := do
  let segType ← pyGetItem seg "type"
  let data ← pyGetItem seg "data"
  if isStr segType "text" then do
    let t ← pyGetD data "text" (.jstr "")
    .ok [t]
  else if isStr segType "image" then do
    let tt ← pyGetD data "telegram_type" .jnull
    .ok [if isStr tt "sticker" then .jstr "[表情]" else .jstr "[图片]"]
  else if isStr segType "video" then .ok [.jstr "[视频]"]
  else if isStr segType "voice" then .ok [.jstr "[语音]"]
  else if isStr segType "audio" then .ok [.jstr "[音频]"]
  else if isStr segType "file" then do
    let fn ← pyGetD data "file_name" (.jstr "")
    .ok [if pyTruthy fn then .jstr ("[文件:" ++ pyStr fn ++ "]") else .jstr "[文件]"]
  else if isStr segType "at" then do
    let n ← pyGetD data "name" (.jstr "")
    .ok [n]
  else if isStr segType "reply" then .ok [.jstr "[回复]"]
  else .ok []

/-- Converter.py `_generate_alt_message`. -/
def generateAltMessage (segments : List JVal) : Except Unit String := do
  let parts ← segments.foldlM (fun acc seg => do
    let t ← altToken seg
    pure (acc ++ t)) []
  let s ← pyJoin " " parts
  .ok (pyStrip s)

/-- Converter.py `_create_base_event`. -/
def createBaseEvent (now : Int) (rawEvent : JVal) (updateId : JVal)
    (eventType rawType : String) : Event :=
  [("id", .jstr (pyStr updateId)),
   ("time", .jint now),
   ("type", .jstr eventType),
   ("detail_type", .jstr ""),
   ("platform", .jstr "telegram"),
   ("self", .jobj [("platform", .jstr "telegram"), ("user_id", .jstr "")]),
   ("telegram_raw", rawEvent),
   ("telegram_raw_type", .jstr rawType)]

/-- Converter.py `_create_unknown_event`, choice of the reported type: the
first key other than `update_id`, defaulting to "unknown". -/
def firstNonUpdateKey (raw : List (String × JVal)) : String :=
  match raw.find? (fun p => p.1 ≠ "update_id") with
  | some p => p.1
  | none => "unknown"

/-- Converter.py `_create_unknown_event`. -/
def createUnknownEvent (now : Int) (raw : List (String × JVal))
    (updateId : JVal) : Event :=
  let unknownType := firstNonUpdateKey raw
  [("id", .jstr (pyStr updateId)),
   ("time", .jint now),
   ("type", .jstr "unknown"),
   ("platform", .jstr "telegram"),
   ("self", .jobj [("platform", .jstr "telegram"), ("user_id", .jstr "")]),
   ("telegram_raw", .jobj raw),
   ("telegram_raw_type", .jstr unknownType),
   ("warning", .jstr ("Unsupported event type: " ++ unknownType)),
   ("alt_message", .jstr "This event type is not supported by this system.")]

/-- Converter.py `_handle_message`, sender block: `if "from" in message`
reads the sender record and yields the `user_id`/`user_nickname` writes. -/
def messageFromUpds (msg : List (String × JVal)) :
    Except Unit (List (String × JVal)) :=
  if hasKey msg "from" then
    match lookupD msg "from" .jnull with
    | .jobj fu =>
      .ok [("user_id", JVal.jstr (pyStr (lookupD fu "id" (.jstr "")))),
           ("user_nickname", getUserNameObj fu)]
    | _ => .error ()
  else .ok []

/-- Body of Converter.py `_handle_message` once the message object and the
edited flag have been selected from the update. -/
def messageCore (now : Int) (token : String) (message : JVal)
    (isEdited : Bool) (base : Event) : Except Unit Event :=
  match message with
  | .jobj msg =>
    match lookupD msg "chat" (.jobj []) with
    | .jobj chatf => do
      let chatType := lookupD chatf "type" (.jstr "")
      let detailType : JVal :=
        if isStr chatType "private" then .jstr "user"
        else if isStr chatType "group" || isStr chatType "supergroup" then .jstr "group"
        else if isStr chatType "channel" then .jstr "channel"
        else chatType
      let segments ← parseMessageContent token (.jobj msg)
      let altMessage ← generateAltMessage segments
      let fromUpds ← messageFromUpds msg
      let upds :=
        [("detail_type", detailType),
         ("message_id", JVal.jstr (pyStr (lookupD msg "message_id" (.jstr "")))),
         ("message", JVal.jarr segments),
         ("alt_message", JVal.jstr altMessage)]
        ++ fromUpds
        ++ (if isEdited then [("telegram_edit_time", JVal.jint now)] else [])
        ++ [("telegram_chat", JVal.jobj chatf)]
        ++ (if isStr detailType "group" then
              [("group_id", JVal.jstr (pyStr (lookupD chatf "id" (.jstr ""))))]
            else if isStr detailType "channel" then
              [("channel_id", JVal.jstr (pyStr (lookupD chatf "id" (.jstr ""))))]
            else [])
      .ok (setMany base upds)
    | _ => .error ()
  | _ => .error ()

/-- Converter.py `_handle_message`. -/
def handleMessage (now : Int) (token : String) (raw : List (String × JVal))
    (base : Event) : Except Unit Event :=
  if hasKey raw "message" || hasKey raw "edited_message" ||
     hasKey raw "channel_post" || hasKey raw "edited_channel_post" then
    let message :=
      if hasKey raw "message" then lookupD raw "message" .jnull
      else if hasKey raw "edited_message" then lookupD raw "edited_message" .jnull
      else if hasKey raw "channel_post" then lookupD raw "channel_post" .jnull
      else lookupD raw "edited_channel_post" .jnull
    let isEdited :=
      if hasKey raw "message" then false
      else if hasKey raw "edited_message" then true
      else if hasKey raw "channel_post" then false
      else true
    messageCore now token message isEdited base
  else .ok base

/-- Converter.py `_handle_callback_query`, inner `if "chat" in msg` block. -/
def callbackChatUpds (m : List (String × JVal)) :
    Except Unit (List (String × JVal)) :=
  if hasKey m "chat" then
    match lookupD m "chat" .jnull with
    | .jobj c =>
      .ok (if isStr (lookupD c "type" .jnull) "channel" then
            [("channel_id", JVal.jstr (pyStr (lookupD c "id" (.jstr ""))))]
          else
            [("group_id", JVal.jstr (pyStr (lookupD c "id" (.jstr ""))))])
    | _ => .error ()
  else .ok []

/-- Converter.py `_handle_callback_query`, `if "message" in callback`
block. -/
def callbackMessageUpds (cb : List (String × JVal)) :
    Except Unit (List (String × JVal)) :=
  if hasKey cb "message" then
    match lookupD cb "message" .jnull with
    | .jobj m => do
      let chatUpds ← callbackChatUpds m
      .ok ([("message_id", JVal.jstr (pyStr (lookupD m "message_id" (.jstr ""))))]
           ++ chatUpds)
    | _ => .error ()
  else .ok []

/-- Converter.py `_handle_callback_query`. -/
def handleCallbackQuery (raw : List (String × JVal)) (base : Event) :
    Except Unit Event := do
  let callback ← pyGetItem (.jobj raw) "callback_query"
  match callback with
  | .jobj cb =>
    match lookupD cb "from" (.jobj []) with
    | .jobj fu => do
      let msgUpds ← callbackMessageUpds cb
      let upds :=
        [("detail_type", JVal.jstr "telegram_callback_query"),
         ("user_id", JVal.jstr (pyStr (lookupD fu "id" (.jstr "")))),
         ("user_nickname", getUserNameObj fu),
         ("telegram_callback_id", lookupD cb "id" (.jstr "")),
         ("telegram_callback_data", lookupD cb "data" .jnull),
         ("telegram_inline_message_id", lookupD cb "inline_message_id" .jnull),
         ("telegram_chat_instance", lookupD cb "chat_instance" (.jstr ""))]
        ++ msgUpds
      .ok (setMany base upds)
    | _ => .error ()
  | _ => .error ()

/-- Converter.py `_handle_poll`. -/
def handlePoll (raw : List (String × JVal)) (base : Event) :
    Except Unit Event := do
  let poll ← pyGetItem (.jobj raw) "poll"
  match poll with
  | .jobj p =>
    .ok (setMany base
      [("detail_type", .jstr "telegram_poll"),
       ("telegram_poll_id", lookupD p "id" (.jstr "")),
       ("telegram_poll_question", lookupD p "question" (.jstr "")),
       ("telegram_poll_options", lookupD p "options" (.jarr [])),
       ("telegram_poll_total_voter_count", lookupD p "total_voter_count" (.jint 0)),
       ("telegram_poll_is_closed", lookupD p "is_closed" (.jbool false)),
       ("telegram_poll_is_anonymous", lookupD p "is_anonymous" (.jbool true)),
       ("telegram_poll_type", lookupD p "type" (.jstr "regular")),
       ("telegram_poll_allows_multiple_answers",
        lookupD p "allows_multiple_answers" (.jbool false)),
       ("telegram_poll_correct_option_id", lookupD p "correct_option_id" .jnull),
       ("telegram_poll_explanation", lookupD p "explanation" .jnull),
       ("telegram_poll_open_period", lookupD p "open_period" .jnull),
       ("telegram_poll_close_date", lookupD p "close_date" .jnull)])
  | _ => .error ()

/-- Converter.py `_handle_poll_answer`. -/
def handlePollAnswer (raw : List (String × JVal)) (base : Event) :
    Except Unit Event := do
  let answer ← pyGetItem (.jobj raw) "poll_answer"
  match answer with
  | .jobj a =>
    match lookupD a "user" (.jobj []) with
    | .jobj u =>
      .ok (setMany base
        [("detail_type", .jstr "telegram_poll_answer"),
         ("user_id", .jstr (pyStr (lookupD u "id" (.jstr "")))),
         ("user_nickname", getUserNameObj u),
         ("telegram_poll_id", lookupD a "poll_id" (.jstr "")),
         ("telegram_poll_option_ids", lookupD a "option_ids" (.jarr [])),
         ("telegram_voter_chat", lookupD a "voter_chat" .jnull)])
    | _ => .error ()
  | _ => .error ()

/-- Converter.py `_handle_chosen_inline_result`. -/
def handleChosenInlineResult (raw : List (String × JVal)) (base : Event) :
    Except Unit Event := do
  let result ← pyGetItem (.jobj raw) "chosen_inline_result"
  match result with
  | .jobj r =>
    match lookupD r "from" (.jobj []) with
    | .jobj u =>
      .ok (setMany base
        [("detail_type", .jstr "telegram_chosen_inline_result"),
         ("user_id", .jstr (pyStr (lookupD u "id" (.jstr "")))),
         ("user_nickname", getUserNameObj u),
         ("telegram_result_id", lookupD r "result_id" (.jstr "")),
         ("telegram_query", lookupD r "query" (.jstr "")),
         ("telegram_inline_message_id", lookupD r "inline_message_id" .jnull)])
    | _ => .error ()
  | _ => .error ()

/-- Converter.py `_handle_chat_member`, selection of the member-update
record and of the `detail_type` value. -/
def chatMemberUpdate (raw : List (String × JVal)) :
    Except Unit (JVal × String) :=
  if hasKey raw "my_chat_member" then
    .ok (lookupD raw "my_chat_member" .jnull, "telegram_my_chat_member")
  else do
    let mu ← pyGetItem (.jobj raw) "chat_member"
    .ok (mu, "telegram_chat_member")

/-- Converter.py `_handle_chat_member` (covers `my_chat_member` and
`chat_member`). -/
def handleChatMember (raw : List (String × JVal)) (base : Event) :
    Except Unit Event := do
  let pair ← chatMemberUpdate raw
  match pair.1 with
  | .jobj mu =>
    let oldMember := lookupD mu "old_chat_member" (.jobj [])
    let newMember := lookupD mu "new_chat_member" (.jobj [])
    match lookupD mu "from" (.jobj []) with
    | .jobj fu =>
      match lookupD mu "chat" (.jobj []) with
      | .jobj c =>
        .ok (setMany base
          ([("detail_type", .jstr pair.2),
            ("user_id", .jstr (pyStr (lookupD fu "id" (.jstr "")))),
            ("user_nickname", getUserNameObj fu),
            ("telegram_old_member", oldMember),
            ("telegram_new_member", newMember),
            ("telegram_chat", .jobj c)]
           ++ (if isStr (lookupD c "type" .jnull) "channel" then
                 [("channel_id", JVal.jstr (pyStr (lookupD c "id" (.jstr ""))))]
               else
                 [("group_id", JVal.jstr (pyStr (lookupD c "id" (.jstr ""))))])))
      | _ => .error ()
    | _ => .error ()
  | _ => .error ()

/-- Converter.py `_handle_inline_query`. -/
def handleInlineQuery (raw : List (String × JVal)) (base : Event) :
    Except Unit Event := do
  let query ← pyGetItem (.jobj raw) "inline_query"
  match query with
  | .jobj q =>
    match lookupD q "from" (.jobj []) with
    | .jobj u =>
      .ok (setMany base
        [("detail_type", .jstr "telegram_inline_query"),
         ("user_id", .jstr (pyStr (lookupD u "id" (.jstr "")))),
         ("user_nickname", getUserNameObj u),
         ("telegram_query_id", lookupD q "id" (.jstr "")),
         ("telegram_query_text", lookupD q "query" (.jstr "")),
         ("telegram_query_offset", lookupD q "offset" (.jstr "")),
         ("telegram_query_chat_type", lookupD q "chat_type" .jnull)])
    | _ => .error ()
  | _ => .error ()

/-- Converter.py `_handle_shipping_query`. -/
def handleShippingQuery (raw : List (String × JVal)) (base : Event) :
    Except Unit Event := do
  let shipping ← pyGetItem (.jobj raw) "shipping_query"
  match shipping with
  | .jobj s =>
    match lookupD s "from" (.jobj []) with
    | .jobj u =>
      .ok (setMany base
        [("detail_type", .jstr "telegram_shipping_query"),
         ("user_id", .jstr (pyStr (lookupD u "id" (.jstr "")))),
         ("user_nickname", getUserNameObj u),
         ("telegram_shipping_query_id", lookupD s "id" (.jstr "")),
         ("telegram_invoice_payload", lookupD s "invoice_payload" (.jstr "")),
         ("telegram_shipping_address", lookupD s "shipping_address" .jnull)])
    | _ => .error ()
  | _ => .error ()

/-- Converter.py `_handle_pre_checkout_query`. -/
def handlePreCheckoutQuery (raw : List (String × JVal)) (base : Event) :
    Except Unit Event := do
  let checkout ← pyGetItem (.jobj raw) "pre_checkout_query"
  match checkout with
  | .jobj c =>
    match lookupD c "from" (.jobj []) with
    | .jobj u =>
      .ok (setMany base
        [("detail_type", .jstr "telegram_pre_checkout_query"),
         ("user_id", .jstr (pyStr (lookupD u "id" (.jstr "")))),
         ("user_nickname", getUserNameObj u),
         ("telegram_checkout_id", lookupD c "id" (.jstr "")),
         ("telegram_invoice_payload", lookupD c "invoice_payload" (.jstr "")),
         ("telegram_currency", lookupD c "currency" (.jstr "")),
         ("telegram_total_amount", lookupD c "total_amount" (.jint 0)),
         ("telegram_shipping_option_id", lookupD c "shipping_option_id" .jnull),
         ("telegram_order_info", lookupD c "order_info" .jnull)])
    | _ => .error ()
  | _ => .error ()

/-- Converter.py `_handle_chat_join_request`, `comment` value:
`request.get("invite_link", {}).get("name", "")`. -/
def inviteLinkName (r : List (String × JVal)) : Except Unit JVal :=
  match lookupD r "invite_link" (.jobj []) with
  | .jobj il => .ok (lookupD il "name" (.jstr ""))
  | _ => .error ()

/-- Converter.py `_handle_chat_join_request`. -/
def handleChatJoinRequest (raw : List (String × JVal)) (base : Event) :
    Except Unit Event := do
  let request ← pyGetItem (.jobj raw) "chat_join_request"
  match request with
  | .jobj r =>
    match lookupD r "from" (.jobj []) with
    | .jobj u =>
      match lookupD r "chat" (.jobj []) with
      | .jobj c => do
        let comment ← inviteLinkName r
        .ok (setMany base
          ([("detail_type", .jstr "telegram_chat_join_request"),
            ("user_id", .jstr (pyStr (lookupD u "id" (.jstr "")))),
            ("user_nickname", getUserNameObj u),
            ("comment", comment),
            ("telegram_chat_join_request_id",
             lookupD r "chat_join_request_id" (.jstr "")),
            ("telegram_date", lookupD r "date" (.jint 0)),
            ("telegram_user_chat_id", lookupD r "user_chat_id" .jnull),
            ("telegram_chat", .jobj c)]
           ++ (if isStr (lookupD c "type" .jnull) "channel" then
                 [("channel_id", JVal.jstr (pyStr (lookupD c "id" (.jstr ""))))]
               else
                 [("group_id", JVal.jstr (pyStr (lookupD c "id" (.jstr ""))))])))
      | _ => .error ()
    | _ => .error ()
  | _ => .error ()

/-- Converter.py `_handle_notice`: dispatch on `telegram_raw_type`. -/
def handleNotice (raw : List (String × JVal)) (base : Event) :
    Except Unit Event :=
  match lookupKV base "telegram_raw_type" with
  | none => Except.error ()
  | some rawType =>
  if isStr rawType "callback_query" then handleCallbackQuery raw base
  else if isStr rawType "poll" then handlePoll raw base
  else if isStr rawType "poll_answer" then handlePollAnswer raw base
  else if isStr rawType "chosen_inline_result" then handleChosenInlineResult raw base
  else if isStr rawType "my_chat_member" || isStr rawType "chat_member" then
    handleChatMember raw base
  else .ok base

/-- Converter.py `_handle_request`: dispatch on `telegram_raw_type`. -/
def handleRequest (raw : List (String × JVal)) (base : Event) :
    Except Unit Event :=
  match lookupKV base "telegram_raw_type" with
  | none => Except.error ()
  | some rawType =>
  if isStr rawType "inline_query" then handleInlineQuery raw base
  else if isStr rawType "shipping_query" then handleShippingQuery raw base
  else if isStr rawType "pre_checkout_query" then handlePreCheckoutQuery raw base
  else if isStr rawType "chat_join_request" then handleChatJoinRequest raw base
  else .ok base

/-- Converter.py `TelegramConverter.convert`: `None` on non-dict input and on
a missing/`None` `update_id`; the unknown-event shape when no recognized key
is present; otherwise the base event refined by the per-category handler
(`getattr` finds a handler for exactly "message", "notice" and "request"). -/
def convert (now : Int) (token : String) (rawEvent : JVal) :
    Except Unit (Option Event) :=
  match rawEvent with
  | .jobj raw =>
    if isNull (lookupD raw "update_id" .jnull) then .ok none
    else
      match detectEventType raw with
      | (none, _) =>
        .ok (some (createUnknownEvent now raw (lookupD raw "update_id" .jnull)))
      | (some eventType, rawType) => do
        let base := createBaseEvent now (.jobj raw)
          (lookupD raw "update_id" .jnull) eventType rawType
        if eventType = "message" then
          .ok (some (← handleMessage now token raw base))
        else if eventType = "notice" then
          .ok (some (← handleNotice raw base))
        else if eventType = "request" then
          .ok (some (← handleRequest raw base))
        else .ok (some base)
  | _ => .ok none

/-! ## Outbound segment translator (`TelegramAdapter/Core.py`,
`Send._convert_ob12_to_telegram`) -/

/-- Chain-modifier state of a `Send` object at translation time
(`_target_id`, `_at_user_ids`, `_reply_message_id`, `_at_all`). -/
structure SendState where
  targetId : JVal
  atUserIds : List JVal
  replyMessageId : JVal
  atAll : Bool

/-- Output of outbound translation: `{"endpoint": ..., "params": ...}`. -/
structure CallDescriptor where
  endpoint : String
  params : List (String × JVal)

/-- Accumulator of the first scanning pass of
`_convert_ob12_to_telegram`. -/
structure ScanAcc where
  textParts : List JVal
  entities : List JVal
  mediaSegment : Option (String × JVal)
  replyMessageId : JVal

/-- Core.py lines 442-485: one mention entity from an `at`/`mention`
segment, appended together with its rendered token. -/
def appendMention (textParts : List JVal) (entities : List JVal)
    (userId : JVal) (mentionText : JVal) :
    Except Unit (List JVal × List JVal) := do
  let joined ← pyJoin "" textParts
  let startPos : Int := Int.ofNat joined.toList.length
  let newParts := textParts ++ [mentionText]
  let mlen ← pyLen mentionText
  if pyIsDigit (pyStr userId) then do
    let uidInt ← pyToInt userId
    .ok (newParts, entities ++ [JVal.jobj
      [("type", .jstr "text_mention"), ("offset", .jint startPos),
       ("length", .jint mlen), ("user", .jobj [("id", .jint uidInt)])]])
  else
    .ok (newParts, entities ++ [JVal.jobj
      [("type", .jstr "mention"), ("offset", .jint startPos),
       ("length", .jint mlen)]])

/-- Media segment types recognized by the scan (Core.py line 437). -/
def mediaTypeNames : List String := ["image", "video", "voice", "file", "audio"]

/-- Whether a segment dict would be captured as a media segment by the
scan (its `type` value is one of the five media type strings). -/
def isMediaSegment (seg : JVal) : Bool :=
  match seg with
  | .jobj f => mediaTypeNames.any (fun t => isStr (lookupD f "type" .jnull) t)
  | _ => false

/-- Core.py lines 430-494: the first scanning pass, one segment. -/
def scanSegment (acc : ScanAcc) (segment : JVal) : Except Unit ScanAcc := do
  let segType ← pyGetD segment "type" .jnull
  let data ← pyGetD segment "data" (.jobj [])
  if isStr segType "text" then do
    let t ← pyGetD data "text" (.jstr "")
    .ok { acc with textParts := acc.textParts ++ [t] }
  else if mediaTypeNames.any (fun t => isStr segType t) then
    match acc.mediaSegment, segType with
    | none, .jstr ty => .ok { acc with mediaSegment := some (ty, data) }
    | _, _ => .ok acc
  else if isStr segType "at" then do
    let userId ← pyGetD data "user_id" (.jstr "")
    let mentionText ← pyGetD data "name" (.jstr ("@" ++ pyStr userId))
    let (p, e) ← appendMention acc.textParts acc.entities userId mentionText
    .ok { acc with textParts := p, entities := e }
  else if isStr segType "mention" then do
    let userId ← pyGetD data "user_id" (.jstr "")
    let name ← pyGetD data "name" (.jstr ("@" ++ pyStr userId))
    let (p, e) ← appendMention acc.textParts acc.entities userId name
    .ok { acc with textParts := p, entities := e }
  else if isStr segType "reply" then do
    let msgId ← pyGetD data "message_id" .jnull
    if pyTruthy msgId then
      match pyToInt msgId with
      | .ok n => .ok { acc with replyMessageId := .jint n }
      | .error _ => .ok acc
    else .ok acc
  else .ok acc

/-- Core.py lines 513-530: one modifier-level `@user` mention.  Note the
offset is taken before appending `" " + mention_text`. -/
def appendModifierMention (pe : List JVal × List JVal) (userId : JVal) :
    Except Unit (List JVal × List JVal) := do
  let mentionText := "@" ++ pyStr userId
  let joined ← pyJoin "" pe.1
  let startPos : Int := Int.ofNat joined.toList.length
  let newParts := pe.1 ++ [JVal.jstr (" " ++ mentionText)]
  if pyIsDigit (pyStr userId) then do
    let uidInt ← pyToInt userId
    .ok (newParts, pe.2 ++ [JVal.jobj
      [("type", .jstr "text_mention"), ("offset", .jint startPos),
       ("length", .jint (Int.ofNat mentionText.toList.length)),
       ("user", .jobj [("id", .jint uidInt)])]])
  else
    .ok (newParts, pe.2 ++ [JVal.jobj
      [("type", .jstr "mention"), ("offset", .jint startPos),
       ("length", .jint (Int.ofNat mentionText.toList.length))]])

/-- Core.py lines 544-558: endpoint for a media segment type. -/
def mediaEndpointFor (ty : String) : String :=
  if ty = "image" then "sendPhoto"
  else if ty = "video" then "sendVideo"
  else if ty = "voice" then "sendVoice"
  else if ty = "audio" then "sendAudio"
  else "sendDocument"

/-- Core.py lines 544-558: params field name for a media segment type. -/
def mediaFieldFor (ty : String) : String :=
  if ty = "image" then "photo"
  else if ty = "video" then "video"
  else if ty = "voice" then "voice"
  else if ty = "audio" then "audio"
  else "document"

/-- Core.py line 561: `data.get("file_id") or data.get("url") or
data.get("file", "")`. -/
def mediaFileOf (data : JVal) : Except Unit JVal := do
  let fid ← pyGetD data "file_id" .jnull
  let url ← pyGetD data "url" .jnull
  let file ← pyGetD data "file" (.jstr "")
  .ok (if pyTruthy fid then fid else if pyTruthy url then url else file)

/-- Core.py `Send._convert_ob12_to_telegram`: scan pass, reply resolution,
modifier-level mentions, mention-all prefixing, then the single emitted
call.  The local `at_all` of the scan is never set by any segment branch, so
the effective flag is the chain modifier `st.atAll` alone. -/
def convertOb12ToTelegram (st : SendState) (messageSegments : List JVal) :
    Except Unit CallDescriptor := do
  let acc ← messageSegments.foldlM scanSegment ⟨[], [], none, .jnull⟩
  let params : List (String × JVal) := [("chat_id", st.targetId)]
  let finalReplyId :=
    if pyTruthy acc.replyMessageId then acc.replyMessageId else st.replyMessageId
  let params :=
    if pyTruthy finalReplyId then
      match pyToInt finalReplyId with
      | .ok n => setK params "reply_to_message_id" (.jint n)
      | .error _ => params
    else params
  let pe ← st.atUserIds.foldlM appendModifierMention (acc.textParts, acc.entities)
  let fullTextBase ← pyJoin "" pe.1
  let fullText := if st.atAll then "@All " ++ fullTextBase else fullTextBase
  match acc.mediaSegment with
  | some (ty, data) => do
    let mediaFile ← mediaFileOf data
    let cap ← pyGetD data "caption" (.jstr "")
    let caption : JVal := if fullText = "" then cap else .jstr fullText
    let params := setK (setK params (mediaFieldFor ty) mediaFile) "caption" caption
    .ok ⟨mediaEndpointFor ty, params⟩
  | none =>
    let params := setK params "text" (.jstr (if fullText = "" then " " else fullText))
    let params :=
      if pe.2.isEmpty then params else setK params "entities" (.jarr pe.2)
    .ok ⟨"sendMessage", params⟩

/-! ## Support definitions for the statements of the claims -/

/-- The `type` value of a segment dict, when there is one. -/
def segTypeOf (seg : JVal) : Option JVal :=
  match seg with
  | .jobj f => lookupKV f "type"
  | _ => none

/-- Content segment types produced by the message parser (everything except
reply and mention segments). -/
def contentTypeNames : List String := ["text", "image", "video", "voice", "audio", "file"]

/-- A media record as required by the parser: a dict that carries its
platform-required `file_id`. -/
def wfMediaRecord (v : JVal) : Bool :=
  match v with
  | .jobj f => hasKey f "file_id"
  | _ => false

/-- An entity annotation as required by the mention resolver: a dict with a
`type`; mention entities carry integer `offset`/`length`, `text_mention`
entities carry a dict `user` (when present). -/
def wfEntity (e : JVal) : Bool :=
  match e with
  | .jobj f =>
    match lookupKV f "type" with
    | some t =>
      if isStr t "mention" then
        match lookupKV f "offset", lookupKV f "length" with
        | some (.jint _), some (.jint _) => true
        | _, _ => false
      else if isStr t "text_mention" then
        match lookupD f "user" (.jobj []) with
        | .jobj _ => true
        | _ => false
      else true
    | none => false
  | _ => false

/-- Well-formedness of a message object under which content parsing is
total: every present media record carries `file_id` (`photo` additionally is
a non-empty list whose last, highest-resolution entry does), a quoted
message is a dict with `message_id` and a dict-or-absent `from`, the `text`
field (when present) is a string, and `entities` (when present) is a list of
well-formed entity dicts. -/
def wfMessage (m : List (String × JVal)) : Bool :=
  (!hasKey m "photo" ||
    (match lookupD m "photo" .jnull with
     | .jarr xs =>
       match xs.getLast? with
       | some p => wfMediaRecord p
       | none => false
     | _ => false)) &&
  (!hasKey m "video" || wfMediaRecord (lookupD m "video" .jnull)) &&
  (!hasKey m "voice" || wfMediaRecord (lookupD m "voice" .jnull)) &&
  (!hasKey m "audio" || wfMediaRecord (lookupD m "audio" .jnull)) &&
  (!hasKey m "document" || wfMediaRecord (lookupD m "document" .jnull)) &&
  (!hasKey m "sticker" || wfMediaRecord (lookupD m "sticker" .jnull)) &&
  (!hasKey m "reply_to_message" ||
    (match lookupD m "reply_to_message" .jnull with
     | .jobj r =>
       hasKey r "message_id" &&
       (match lookupD r "from" (.jobj []) with
        | .jobj _ => true
        | _ => false)
     | _ => false)) &&
  (match lookupD m "text" (.jstr "") with
   | .jstr _ => true
   | _ => false) &&
  (match lookupD m "entities" (.jarr []) with
   | .jarr es => es.all wfEntity
   | _ => false)

/-- Substring test (used to witness where the bot credential occurs). -/
def strContainsSub (haystack needle : String) : Bool :=
  (List.range (haystack.toList.length + 1)).any
    (fun i => needle.toList.isPrefixOf (haystack.toList.drop i))

/-- All string literals occurring in a value (keys included), up to the
given nesting depth. -/
def jvalStrs : Nat → JVal → List String
  | _, .jnull => []
  | _, .jbool _ => []
  | _, .jint _ => []
  | _, .jstr s => [s]
  | 0, .jarr _ => []
  | 0, .jobj _ => []
  | n + 1, .jarr xs => xs.foldl (fun acc x => acc ++ jvalStrs n x) []
  | n + 1, .jobj fs => fs.foldl (fun acc p => acc ++ p.1 :: jvalStrs n p.2) []

/-- Update used to witness the amended totality statement: it carries an
`update_id` but no recognized event key. -/
def c1Raw : List (String × JVal) := [("update_id", .jint 42), ("zzz", .jint 0)]

/-- Bot credential used in the C8 counterexample. -/
def c8Token : String := "SECRETTOKEN"

/-- C8 counterexample input: a photo message whose record carries a
`file_path` but no occurrence of the bot credential. -/
def c8Input : JVal :=
  .jobj [("update_id", .jint 1),
         ("message", .jobj
           [("chat", .jobj [("type", .jstr "private")]),
            ("photo", .jarr [.jobj
              [("file_id", .jstr "fid"), ("file_path", .jstr "p.jpg")]])])]

/-- The event the converter produces from `c8Input` at `now = 0`: its image
segment's `url` field embeds the bot credential. -/
def c8Event : Event :=
  [("id", .jstr "1"),
   ("time", .jint 0),
   ("type", .jstr "message"),
   ("detail_type", .jstr "user"),
   ("platform", .jstr "telegram"),
   ("self", .jobj [("platform", .jstr "telegram"), ("user_id", .jstr "")]),
   ("telegram_raw", c8Input),
   ("telegram_raw_type", .jstr "message"),
   ("message_id", .jstr ""),
   ("message", .jarr [.jobj
     [("type", .jstr "image"),
      ("data", .jobj
        [("file_id", .jstr "fid"),
         ("url", .jstr "https://api.telegram.org/file/botSECRETTOKEN/p.jpg"),
         ("telegram_file", .jobj
           [("file_id", .jstr "fid"), ("file_path", .jstr "p.jpg")])])]]),
   ("alt_message", .jstr "[图片]"),
   ("telegram_chat", .jobj [("type", .jstr "private")])]

/-- Nulls the `url` field of a segment's data record, the one place where
the converter writes a value built from the bot credential. -/
def scrubSeg (seg : JVal) : JVal :=
  match seg with
  | .jobj f =>
    match lookupKV f "data" with
    | some (.jobj d) => .jobj (setK f "data" (.jobj (setK d "url" .jnull)))
    | _ => seg
  | _ => seg

/-- Nulls the `url` fields of all message segments of an event. -/
def scrubEvent (e : Event) : Event :=
  match lookupKV e "message" with
  | some (.jarr segs) => setK e "message" (.jarr (segs.map scrubSeg))
  | _ => e

/-- Pointwise (field-by-field) equality of two event dicts. -/
def pwEq (d1 d2 : List (String × JVal)) : Prop :=
  ∀ k, lookupKV d1 k = lookupKV d2 k

/-- The envelope identity fields (`id`, `type`, `platform`) of `e` agree
with those of `base` — what every enrichment handler must preserve. -/
def pwKeep (base e : Event) : Prop :=
  lookupKV e "id" = lookupKV base "id" ∧
  lookupKV e "type" = lookupKV base "type" ∧
  lookupKV e "platform" = lookupKV base "platform"

/-- Relates two `Except Unit` computations: identical failure behavior and
`R`-related successes. -/
def exceptRel {α : Type} (R : α → α → Prop) :
    Except Unit α → Except Unit α → Prop
  | .ok a1, .ok a2 => R a1 a2
  | .error _, .error _ => True
  | _, _ => False

/-- Two segments that agree after the `url` scrub and render the same
alt-message token. -/
def segRel (s1 s2 : JVal) : Prop :=
  scrubSeg s1 = scrubSeg s2 ∧ altToken s1 = altToken s2

/-- Relates two segment-list computations pointwise by `segRel`. -/
def segsRel : Except Unit (List JVal) → Except Unit (List JVal) → Prop :=
  exceptRel (List.Forall₂ segRel)

/-- Relates two event computations: field-by-field equal after the `url`
scrub. -/
def eventScrubRel : Except Unit Event → Except Unit Event → Prop :=
  exceptRel (fun e1 e2 =>
    ∀ k, lookupKV (scrubEvent e1) k = lookupKV (scrubEvent e2) k)

/-- Relates two conversion results: same shape, and field-by-field equal
events after the `url` scrub. -/
def convScrubEq :
    Except Unit (Option Event) → Except Unit (Option Event) → Prop :=
  exceptRel (fun o1 o2 =>
    match o1, o2 with
    | some e1, some e2 =>
      ∀ k, lookupKV (scrubEvent e1) k = lookupKV (scrubEvent e2) k
    | none, none => True
    | _, _ => False)

/-! ## General lemmas about the dict model -/

theorem lookupKV_setK_self (d : List (String × JVal)) (k : String) (v : JVal) :
    lookupKV (setK d k v) k = some v := by
  induction d with
  | nil => simp [setK, lookupKV]
  | cons a rest ih =>
    obtain ⟨a1, a2⟩ := a
    by_cases h : a1 = k
    · simp [setK, lookupKV, h]
    · simp [setK, lookupKV, h, ih]

theorem lookupKV_setK_ne (d : List (String × JVal)) (k k' : String) (v : JVal)
    (h : k ≠ k') : lookupKV (setK d k v) k' = lookupKV d k' := by
  induction d with
  | nil => simp [setK, lookupKV, h]
  | cons a rest ih =>
    obtain ⟨a1, a2⟩ := a
    by_cases ha : a1 = k
    · subst ha
      simp [setK, lookupKV, h]
    · simp [setK, lookupKV, ha, ih]

theorem setMany_cons (d : List (String × JVal)) (u : String × JVal)
    (us : List (String × JVal)) :
    setMany d (u :: us) = setMany (setK d u.1 u.2) us := rfl

theorem setMany_append (d : List (String × JVal))
    (us vs : List (String × JVal)) :
    setMany d (us ++ vs) = setMany (setMany d us) vs := by
  simp [setMany, List.foldl_append]

theorem lookupKV_setMany_not_mem (d : List (String × JVal))
    (us : List (String × JVal)) (k : String)
    (h : ∀ p ∈ us, p.1 ≠ k) :
    lookupKV (setMany d us) k = lookupKV d k := by
  induction us generalizing d with
  | nil => rfl
  | cons u rest ih =>
    rw [setMany_cons, ih _ (fun p hp => h p (by simp [hp]))]
    exact lookupKV_setK_ne d u.1 k u.2 (h u (by simp))

theorem pwEq_setK (d1 d2 : List (String × JVal)) (a : String) (v : JVal)
    (h : pwEq d1 d2) : pwEq (setK d1 a v) (setK d2 a v) := by
  intro k
  by_cases hk : a = k
  · subst hk
    rw [lookupKV_setK_self, lookupKV_setK_self]
  · rw [lookupKV_setK_ne _ _ _ _ hk, lookupKV_setK_ne _ _ _ _ hk]
    exact h k

theorem pwEq_setMany (us : List (String × JVal))
    (d1 d2 : List (String × JVal)) (h : pwEq d1 d2) :
    pwEq (setMany d1 us) (setMany d2 us) := by
  induction us generalizing d1 d2 with
  | nil => exact h
  | cons u rest ih =>
    rw [setMany_cons, setMany_cons]
    exact ih _ _ (pwEq_setK d1 d2 u.1 u.2 h)

theorem find?_of_split {α : Type} (p : α → Bool) (l1 : List α) (x : α)
    (l2 : List α) (h1 : ∀ y ∈ l1, p y = false) (hx : p x = true) :
    (l1 ++ x :: l2).find? p = some x := by
  induction l1 with
  | nil => simp [List.find?, hx]
  | cons a rest ih =>
    have ha := h1 a (by simp)
    simp only [List.cons_append, List.find?, ha]
    exact ih (fun y hy => h1 y (by simp [hy]))

/-! ## C10 -/

/-- C10: an input that is not a mapping at all, or a mapping whose
`update_id` is absent (or explicitly `None`), converts to Python `None` —
no NormalizedEvent is produced, even when a recognized key such as
"message" is present; no unknown-category event is synthesized. -/
theorem c10_none_without_update_id (now : Int) (token : String) (v : JVal)
    (h : ∀ fields, v = .jobj fields → lookupD fields "update_id" .jnull = .jnull) :
    convert now token v = .ok none := by
  cases v with
  | jobj fields =>
    have hn := h fields rfl
    simp [convert, hn, isNull]
  | jnull => rfl
  | jbool b => rfl
  | jint n => rfl
  | jstr s => rfl
  | jarr xs => rfl

theorem c10_witness :
    (∀ fields, JVal.jobj [("message", JVal.jobj [])] = JVal.jobj fields →
      lookupD fields "update_id" .jnull = .jnull) ∧
    convert 0 "tok" (.jobj [("message", .jobj [])]) = .ok none := by
  have h : ∀ fields, JVal.jobj [("message", JVal.jobj [])] = JVal.jobj fields →
      lookupD fields "update_id" .jnull = .jnull := by
    intro fields hf
    injection hf with h2
    subst h2
    rfl
  exact ⟨h, c10_none_without_update_id 0 "tok" _ h⟩

/-! ## C9 -/

/-- C9: display-name precedence — for a user record whose
username/first/last fields (after their source defaults) are strings, the
resolver returns the username when it is non-empty regardless of the name
fields; otherwise the space-joined, trimmed full name when that is
non-empty; otherwise the stringified `id`. -/
theorem c9_display_name_precedence (u : List (String × JVal))
    (un fn ln : String)
    (hu : lookupD u "username" (.jstr "") = .jstr un)
    (hf : lookupD u "first_name" (.jstr "") = .jstr fn)
    (hl : lookupD u "last_name" (.jstr "") = .jstr ln) :
    (un ≠ "" → getUserName (.jobj u) = .ok (.jstr un)) ∧
    (un = "" → pyStrip (fn ++ " " ++ ln) ≠ "" →
      getUserName (.jobj u) = .ok (.jstr (pyStrip (fn ++ " " ++ ln)))) ∧
    (un = "" → pyStrip (fn ++ " " ++ ln) = "" →
      getUserName (.jobj u) = .ok (.jstr (pyStr (lookupD u "id" (.jstr ""))))) := by
  refine ⟨?_, ?_, ?_⟩
  · intro hne
    simp [getUserName, getUserNameObj, hu, hf, hl, pyTruthy, hne, pyStr]
  · intro he hs
    simp [getUserName, getUserNameObj, hu, hf, hl, pyTruthy, he, pyStr, hs]
  · intro he hs
    simp [getUserName, getUserNameObj, hu, hf, hl, pyTruthy, he, pyStr, hs]

theorem c9_witness :
    lookupD [("username", JVal.jstr "alice"), ("first_name", JVal.jstr "Bo")]
      "username" (.jstr "") = .jstr "alice" ∧
    getUserName (.jobj [("username", .jstr "alice"), ("first_name", .jstr "Bo")]) =
      .ok (.jstr "alice") :=
  ⟨rfl, (c9_display_name_precedence
      [("username", .jstr "alice"), ("first_name", .jstr "Bo")]
      "alice" "Bo" "" rfl rfl rfl).1 (by decide)⟩

/-! ## C7 -/

/-- C7: event classification is first-match-wins in the classifier's own
declaration order — for every update, whenever the ordered map splits as
`l1 ++ (k, c) :: l2` with no key of `l1` present and `k` present (even if
later recognized keys are also present), the result is `(some c, k)`; the
unknown signal is returned exactly when no recognized key is present; and
classification is a pure function, so two calls agree. -/
theorem c7_first_match_classification (raw : List (String × JVal)) :
    detectEventType raw = detectEventType raw ∧
    (detectEventType raw = (none, "unknown") ↔
      ∀ p ∈ eventTypeMap, hasKey raw p.1 = false) ∧
    (∀ l1 k c l2, eventTypeMap = l1 ++ (k, c) :: l2 →
      (∀ p ∈ l1, hasKey raw p.1 = false) → hasKey raw k = true →
      detectEventType raw = (some c, k)) := by
  refine ⟨rfl, ?_, ?_⟩
  · constructor
    · intro h p hp
      cases hfind : List.find? (fun q => hasKey raw q.1) eventTypeMap with
      | none =>
        have hnone := List.find?_eq_none.mp hfind p hp
        simpa using hnone
      | some q =>
        unfold detectEventType at h
        rw [hfind] at h
        simp at h
    · intro h
      unfold detectEventType
      have : List.find? (fun p => hasKey raw p.1) eventTypeMap = none := by
        apply List.find?_eq_none.mpr
        intro p hp
        simp [h p hp]
      rw [this]
  · intro l1 k c l2 hsplit h1 hk
    unfold detectEventType
    rw [hsplit, find?_of_split _ l1 (k, c) l2 (fun y hy => h1 y hy) hk]

theorem c7_witness :
    detectEventType [("poll", .jnull), ("message", .jnull)] =
      (some "message", "message") := by
  refine (c7_first_match_classification _).2.2 []
    "message" "message" (eventTypeMap.tail) rfl ?_ rfl
  intro p hp
  simp at hp

/-! ## C2 -/

/-- C2: evaluation of the outbound translator at the failing input — a
chain-modifier mention `At("123")` with no segments.  The rendered text is
`" @123"` but the emitted entity has offset 0 and length 4, so the declared
span is `" @12"`: it contains the separating space and drops the last
character of the mention token, instead of being exactly `"@123"` as the
claim requires. -/
theorem c2_modifier_mention_offset_eval :
    convertOb12ToTelegram ⟨.jstr "c", [.jstr "123"], .jnull, false⟩ [] =
      .ok ⟨"sendMessage",
        [("chat_id", .jstr "c"), ("text", .jstr " @123"),
         ("entities", .jarr [.jobj
           [("type", .jstr "text_mention"), ("offset", .jint 0),
            ("length", .jint 4), ("user", .jobj [("id", .jint 123)])]])]⟩ ∧
    pySliceStr " @123" 0 4 = " @12" ∧ " @12" ≠ "@123" :=
  ⟨rfl, rfl, by decide⟩

/-! ## C4 -/

/-- C4 counterexample: with the mention-all flag set and one modifier-level
mention target "bob", the final text is `"@All  @bob"` but the mention
entity has offset 0 — computed against the text before the mention-all
prefix was prepended — so the declared span of the final text is `"@All"`,
not the mention token.  This refutes the claim that the mention-all literal
is inserted before modifier-level mention offsets are finalized. -/
theorem c4_counterexample :
    convertOb12ToTelegram ⟨.jstr "c", [.jstr "bob"], .jnull, true⟩ [] =
      .ok ⟨"sendMessage",
        [("chat_id", .jstr "c"), ("text", .jstr "@All  @bob"),
         ("entities", .jarr [.jobj
           [("type", .jstr "mention"), ("offset", .jint 0),
            ("length", .jint 4)]])]⟩ ∧
    pySliceStr "@All  @bob" 0 4 = "@All" ∧ "@All" ≠ "@bob" :=
  ⟨rfl, rfl, by decide⟩

/-! ## C3 -/

/-- C3 counterexample: a message whose photo representation lacks
`file_id` — named by the claim as a field whose absence must be tolerated —
makes content parsing raise (`photo["file_id"]` is a `KeyError`), so
enrichment is not raise-free for every subset of present fields. -/
theorem c3_counterexample :
    parseMessageContent "tok" (.jobj [("photo", .jarr [.jobj []])]) =
      .error () := rfl

/-! ## C1 -/

/-- C1 counterexample: a well-formed mapping with `update_id` on which
conversion raises instead of returning a NormalizedEvent (the photo record
lacks `file_id`), refuting unconditional totality of inbound conversion. -/
theorem c1_counterexample :
    convert 0 "tok" (.jobj [("update_id", .jint 1),
      ("message", .jobj [("photo", .jarr [.jobj []])])]) = .error () := rfl

/-! ## C8 -/

/-- C8 counterexample: converting `c8Input` (which nowhere contains the bot
credential) embeds the credential in the image segment's converter-derived
`url` field of the resulting event, refuting the claim that the credential
never appears in any converter-derived field unless the input contained
it. -/
theorem c8_counterexample :
    convert 0 c8Token c8Input = .ok (some c8Event) ∧
    (jvalStrs 10 c8Input).all (fun s => !strContainsSub s c8Token) = true ∧
    (jvalStrs 10 (.jobj c8Event)).any (fun s => strContainsSub s c8Token) = true :=
  ⟨rfl, by decide, by decide⟩

/-! ## Dissection helpers for `Except Unit` computations -/

theorem ok_bind {α β : Type} (a : α) (f : α → Except Unit β) :
    ((Except.ok a : Except Unit α) >>= f) = f a := rfl

theorem error_bind {α β : Type} (f : α → Except Unit β) :
    ((Except.error () : Except Unit α) >>= f) = .error () := rfl

theorem exceptBind_ok {α β : Type} {m : Except Unit α} {f : α → Except Unit β}
    {b : β} (h : (m >>= f) = .ok b) : ∃ a, m = .ok a ∧ f a = .ok b := by
  cases m with
  | ok a => exact ⟨a, rfl, h⟩
  | error e =>
    cases e
    rw [error_bind] at h
    exact Except.noConfusion h

theorem foldlM_all {α : Type} (P : JVal → Prop)
    (f : List JVal → α → Except Unit (List JVal)) (items : List α)
    (hstep : ∀ acc a r, f acc a = .ok r → (∀ s ∈ acc, P s) → ∀ s ∈ r, P s) :
    ∀ acc res, items.foldlM f acc = .ok res → (∀ s ∈ acc, P s) →
      ∀ s ∈ res, P s := by
  induction items with
  | nil =>
    intro acc res h h0
    rw [List.foldlM_nil] at h
    cases h
    exact h0
  | cons a rest ih =>
    intro acc res h h0
    rw [List.foldlM_cons] at h
    rcases exceptBind_ok h with ⟨acc1, h1, h2⟩
    exact ih acc1 res h2 (hstep acc a acc1 h1 h0)

theorem foldlM_total {α : Type} (f : List JVal → α → Except Unit (List JVal))
    (items : List α)
    (hstep : ∀ acc a, a ∈ items → ∃ r, f acc a = .ok r) :
    ∀ acc, ∃ res, items.foldlM f acc = .ok res := by
  induction items with
  | nil => intro acc; exact ⟨acc, rfl⟩
  | cons a rest ih =>
    intro acc
    rcases hstep acc a (by simp) with ⟨r, hr⟩
    rcases ih (fun acc' a' ha' => hstep acc' a' (by simp [ha'])) r with ⟨res, hres⟩
    exact ⟨res, by rw [List.foldlM_cons, hr, ok_bind, hres]⟩

/-! ## Structure of the parsed segment sequence -/

theorem segTypeOf_mkSegment (ty : String) (d : List (String × JVal)) :
    segTypeOf (mkSegment ty d) = some (.jstr ty) := rfl

theorem textSegments_types (m : List (String × JVal)) :
    ∀ s ∈ textSegments m, segTypeOf s = some (.jstr "text") := by
  intro s hs
  simp only [textSegments] at hs
  split at hs <;> simp at hs <;>
    first
    | (rw [hs]; rfl)
    | (rw [hs.2]; rfl)

theorem photoSegments_types {token : String} {m : List (String × JVal)}
    {l : List JVal} (h : photoSegments token m = .ok l) :
    ∀ s ∈ l, segTypeOf s = some (.jstr "image") := by
  intro s hs
  unfold photoSegments at h
  split at h
  · rcases exceptBind_ok h with ⟨photo, h1, h2⟩
    rcases exceptBind_ok h2 with ⟨fid, h3, h4⟩
    rcases exceptBind_ok h4 with ⟨fp, h5, h6⟩
    cases h6
    simp at hs
    subst hs
    rfl
  · cases h
    simp at hs

theorem videoSegments_types {token : String} {m : List (String × JVal)}
    {l : List JVal} (h : videoSegments token m = .ok l) :
    ∀ s ∈ l, segTypeOf s = some (.jstr "video") := by
  intro s hs
  unfold videoSegments at h
  split at h
  · rcases exceptBind_ok h with ⟨fid, h1, h2⟩
    rcases exceptBind_ok h2 with ⟨fp, h3, h4⟩
    rcases exceptBind_ok h4 with ⟨dur, h5, h6⟩
    rcases exceptBind_ok h6 with ⟨w, h7, h8⟩
    rcases exceptBind_ok h8 with ⟨hh, h9, h10⟩
    cases h10
    simp at hs
    subst hs
    rfl
  · cases h
    simp at hs

theorem voiceSegments_types {token : String} {m : List (String × JVal)}
    {l : List JVal} (h : voiceSegments token m = .ok l) :
    ∀ s ∈ l, segTypeOf s = some (.jstr "voice") := by
  intro s hs
  unfold voiceSegments at h
  split at h
  · rcases exceptBind_ok h with ⟨fid, h1, h2⟩
    rcases exceptBind_ok h2 with ⟨fp, h3, h4⟩
    rcases exceptBind_ok h4 with ⟨dur, h5, h6⟩
    cases h6
    simp at hs
    subst hs
    rfl
  · cases h
    simp at hs

theorem audioSegments_types {token : String} {m : List (String × JVal)}
    {l : List JVal} (h : audioSegments token m = .ok l) :
    ∀ s ∈ l, segTypeOf s = some (.jstr "audio") := by
  intro s hs
  unfold audioSegments at h
  split at h
  · rcases exceptBind_ok h with ⟨fid, h1, h2⟩
    rcases exceptBind_ok h2 with ⟨fp, h3, h4⟩
    rcases exceptBind_ok h4 with ⟨dur, h5, h6⟩
    rcases exceptBind_ok h6 with ⟨title, h7, h8⟩
    rcases exceptBind_ok h8 with ⟨perf, h9, h10⟩
    cases h10
    simp at hs
    subst hs
    rfl
  · cases h
    simp at hs

theorem documentSegments_types {token : String} {m : List (String × JVal)}
    {l : List JVal} (h : documentSegments token m = .ok l) :
    ∀ s ∈ l, segTypeOf s = some (.jstr "file") := by
  intro s hs
  unfold documentSegments at h
  split at h
  · rcases exceptBind_ok h with ⟨fid, h1, h2⟩
    rcases exceptBind_ok h2 with ⟨fp, h3, h4⟩
    rcases exceptBind_ok h4 with ⟨fn, h5, h6⟩
    rcases exceptBind_ok h6 with ⟨fs2, h7, h8⟩
    rcases exceptBind_ok h8 with ⟨mime, h9, h10⟩
    cases h10
    simp at hs
    subst hs
    rfl
  · cases h
    simp at hs

theorem stickerSegments_types {token : String} {m : List (String × JVal)}
    {l : List JVal} (h : stickerSegments token m = .ok l) :
    ∀ s ∈ l, segTypeOf s = some (.jstr "image") := by
  intro s hs
  unfold stickerSegments at h
  split at h
  · rcases exceptBind_ok h with ⟨fid, h1, h2⟩
    rcases exceptBind_ok h2 with ⟨fp, h3, h4⟩
    cases h4
    simp at hs
    subst hs
    rfl
  · cases h
    simp at hs

theorem mentionOfEntity_types {text entity : JVal} {l : List JVal}
    (h : mentionOfEntity text entity = .ok l) :
    ∀ s ∈ l, segTypeOf s = some (.jstr "at") := by
  intro s hs
  unfold mentionOfEntity at h
  rcases exceptBind_ok h with ⟨etype, h1, h2⟩
  split at h2
  · rcases exceptBind_ok h2 with ⟨offv, h3, h4⟩
    rcases exceptBind_ok h4 with ⟨lenv, h5, h6⟩
    rcases exceptBind_ok h6 with ⟨off, h7, h8⟩
    rcases exceptBind_ok h8 with ⟨len, h9, h10⟩
    rcases exceptBind_ok h10 with ⟨tlen, h11, h12⟩
    split at h12
    · rcases exceptBind_ok h12 with ⟨mt, h13, h14⟩
      cases h14
      simp at hs
      subst hs
      rfl
    · cases h12
      simp at hs
  · split at h2
    · rcases exceptBind_ok h2 with ⟨user, h3, h4⟩
      rcases exceptBind_ok h4 with ⟨uid, h5, h6⟩
      rcases exceptBind_ok h6 with ⟨nm, h7, h8⟩
      cases h8
      simp at hs
      subst hs
      rfl
    · cases h2
      simp at hs

theorem parseMentionsList_types {message : JVal} {l : List JVal}
    (h : parseMentionsList message = .ok l) :
    ∀ s ∈ l, segTypeOf s = some (.jstr "at") := by
  unfold parseMentionsList at h
  rcases exceptBind_ok h with ⟨entities, h1, h2⟩
  rcases exceptBind_ok h2 with ⟨text, h3, h4⟩
  rcases exceptBind_ok h4 with ⟨items, h5, h6⟩
  refine foldlM_all (fun s => segTypeOf s = some (.jstr "at")) _ items
    ?_ [] l h6 (by simp)
  intro acc a r hr hacc
  rcases exceptBind_ok hr with ⟨segs, hm, hp⟩
  cases hp
  intro s hs
  rcases List.mem_append.mp hs with hsa | hsm
  · exact hacc s hsa
  · exact mentionOfEntity_types hm s hsm

/-! ## Totality of content parsing under well-formedness -/

theorem hasKey_some {f : List (String × JVal)} {k : String}
    (h : hasKey f k = true) : ∃ v, lookupKV f k = some v := by
  simp only [hasKey] at h
  exact Option.isSome_iff_exists.mp h

theorem hasKey_false {f : List (String × JVal)} {k : String}
    (h : ¬ hasKey f k = true) : hasKey f k = false := by
  revert h
  cases hasKey f k <;> simp

theorem wfMediaRecord_elim {p : JVal} (h : wfMediaRecord p = true) :
    ∃ pf fid, p = .jobj pf ∧ lookupKV pf "file_id" = some fid := by
  cases p <;> simp [wfMediaRecord] at h
  case jobj pf =>
    rcases hasKey_some h with ⟨fid, hfid⟩
    exact ⟨pf, fid, rfl, hfid⟩

theorem photoSegments_total (token : String) (m : List (String × JVal))
    (h : (!hasKey m "photo" ||
      (match lookupD m "photo" .jnull with
       | JVal.jarr xs =>
         match xs.getLast? with
         | some p => wfMediaRecord p
         | none => false
       | _ => false)) = true) :
    ∃ l, photoSegments token m = .ok l := by
  by_cases hk : hasKey m "photo" = true
  · rw [hk] at h
    simp only [Bool.not_true, Bool.false_or] at h
    cases hp : lookupD m "photo" .jnull <;> simp only [hp] at h <;> try cases h
    rename_i xs
    cases hl : xs.getLast? <;> simp only [hl] at h <;> try cases h
    rename_i p
    rcases wfMediaRecord_elim h with ⟨pf, fid, rfl, hfid⟩
    simp [photoSegments, hk, hp, pyLastElem, hl, pyGetItem, hfid, pyGetD, ok_bind]
  · simp [photoSegments, hk]

theorem videoSegments_total (token : String) (m : List (String × JVal))
    (h : (!hasKey m "video" || wfMediaRecord (lookupD m "video" .jnull)) = true) :
    ∃ l, videoSegments token m = .ok l := by
  by_cases hk : hasKey m "video" = true
  · rw [hk] at h
    simp only [Bool.not_true, Bool.false_or] at h
    rcases wfMediaRecord_elim h with ⟨vf, fid, hvf, hfid⟩
    simp [videoSegments, hk, hvf, pyGetItem, hfid, pyGetD, ok_bind]
  · simp [videoSegments, hk]

theorem voiceSegments_total (token : String) (m : List (String × JVal))
    (h : (!hasKey m "voice" || wfMediaRecord (lookupD m "voice" .jnull)) = true) :
    ∃ l, voiceSegments token m = .ok l := by
  by_cases hk : hasKey m "voice" = true
  · rw [hk] at h
    simp only [Bool.not_true, Bool.false_or] at h
    rcases wfMediaRecord_elim h with ⟨vf, fid, hvf, hfid⟩
    simp [voiceSegments, hk, hvf, pyGetItem, hfid, pyGetD, ok_bind]
  · simp [voiceSegments, hk]

theorem audioSegments_total (token : String) (m : List (String × JVal))
    (h : (!hasKey m "audio" || wfMediaRecord (lookupD m "audio" .jnull)) = true) :
    ∃ l, audioSegments token m = .ok l := by
  by_cases hk : hasKey m "audio" = true
  · rw [hk] at h
    simp only [Bool.not_true, Bool.false_or] at h
    rcases wfMediaRecord_elim h with ⟨vf, fid, hvf, hfid⟩
    simp [audioSegments, hk, hvf, pyGetItem, hfid, pyGetD, ok_bind]
  · simp [audioSegments, hk]

theorem documentSegments_total (token : String) (m : List (String × JVal))
    (h : (!hasKey m "document" || wfMediaRecord (lookupD m "document" .jnull)) = true) :
    ∃ l, documentSegments token m = .ok l := by
  by_cases hk : hasKey m "document" = true
  · rw [hk] at h
    simp only [Bool.not_true, Bool.false_or] at h
    rcases wfMediaRecord_elim h with ⟨vf, fid, hvf, hfid⟩
    simp [documentSegments, hk, hvf, pyGetItem, hfid, pyGetD, ok_bind]
  · simp [documentSegments, hk]

theorem stickerSegments_total (token : String) (m : List (String × JVal))
    (h : (!hasKey m "sticker" || wfMediaRecord (lookupD m "sticker" .jnull)) = true) :
    ∃ l, stickerSegments token m = .ok l := by
  by_cases hk : hasKey m "sticker" = true
  · rw [hk] at h
    simp only [Bool.not_true, Bool.false_or] at h
    rcases wfMediaRecord_elim h with ⟨vf, fid, hvf, hfid⟩
    simp [stickerSegments, hk, hvf, pyGetItem, hfid, pyGetD, ok_bind]
  · simp [stickerSegments, hk]

theorem withReplySegment_total (m : List (String × JVal)) (content : List JVal)
    (h : (!hasKey m "reply_to_message" ||
      (match lookupD m "reply_to_message" .jnull with
       | JVal.jobj r =>
         hasKey r "message_id" &&
         (match lookupD r "from" (.jobj []) with
          | JVal.jobj _ => true
          | _ => false)
       | _ => false)) = true) :
    ∃ l, withReplySegment m content = .ok l := by
  by_cases hk : hasKey m "reply_to_message" = true
  · rw [hk] at h
    simp only [Bool.not_true, Bool.false_or] at h
    cases hr : lookupD m "reply_to_message" .jnull <;> simp only [hr] at h <;>
      try cases h
    rename_i r
    simp only [Bool.and_eq_true] at h
    obtain ⟨hmid, hfrom⟩ := h
    rcases hasKey_some hmid with ⟨mid, hmid'⟩
    cases hfu : lookupD r "from" (.jobj []) <;> simp only [hfu] at hfrom <;>
      try cases hfrom
    rename_i fu
    simp [withReplySegment, hk, hr, pyGetItem, hmid', pyGetD, hfu, ok_bind]
  · simp [withReplySegment, hk]

theorem mentionOfEntity_total (ts : String) (entity : JVal)
    (h : wfEntity entity = true) :
    ∃ l, mentionOfEntity (.jstr ts) entity = .ok l := by
  cases entity <;> simp [wfEntity] at h
  case jobj f =>
  cases ht : lookupKV f "type" with
  | none => simp only [wfEntity, ht] at h; cases h
  | some t =>
    simp only [wfEntity, ht] at h
    by_cases hm : isStr t "mention" = true
    · simp only [hm, if_true] at h
      cases ho : lookupKV f "offset" <;> simp only [ho] at h <;> try cases h
      rename_i ov
      cases hl : lookupKV f "length" <;> simp only [hl] at h <;>
        (try (cases ov <;> cases h))
      rename_i lv
      cases ov <;> cases lv <;> (try cases h)
      rename_i o ln
      simp only [mentionOfEntity, pyGetItem, ht, hm, ho, hl, pyToIntNum, pyLen,
        pySlice, ok_bind, if_true, eq_self_iff_true, ite_true]
      split <;> exact ⟨_, rfl⟩
    · by_cases htm : isStr t "text_mention" = true
      · simp only [hm, if_false, Bool.false_eq_true, htm, if_true] at h
        cases hu : lookupD f "user" (.jobj []) <;> simp only [hu] at h <;>
          try cases h
        rename_i uf
        simp [mentionOfEntity, pyGetItem, ht, hm, htm, pyGetD, hu, getUserName,
          ok_bind]
      · simp [mentionOfEntity, pyGetItem, ht, hm, htm, ok_bind]

theorem parseMentionsList_total (m : List (String × JVal)) (ts : String)
    (es : List JVal)
    (htext : lookupD m "text" (.jstr "") = .jstr ts)
    (hes : lookupD m "entities" (.jarr []) = .jarr es)
    (hwf : es.all wfEntity = true) :
    ∃ l, parseMentionsList (.jobj m) = .ok l := by
  unfold parseMentionsList
  rw [show pyGetD (JVal.jobj m) "entities" (.jarr []) = .ok (.jarr es) from by
    simp [pyGetD, hes], ok_bind]
  rw [show pyGetD (JVal.jobj m) "text" (.jstr "") = .ok (.jstr ts) from by
    simp [pyGetD, htext], ok_bind]
  rw [show pyIterate (JVal.jarr es) = .ok es from rfl, ok_bind]
  apply foldlM_total
  intro acc a ha
  have hwa : wfEntity a = true := by
    have := List.all_eq_true.mp hwf
    exact this a ha
  rcases mentionOfEntity_total ts a hwa with ⟨l, hl⟩
  exact ⟨acc ++ l, by rw [hl, ok_bind]; rfl⟩

/-- C3 amended: content enrichment is raise-free for every subset of
*optional* fields, but requires the platform-required identifiers it indexes
directly: under `wfMessage` — every present media record carries `file_id`
(the photo array non-empty with a well-formed last entry), a quoted message
carries `message_id` with a dict-or-absent sender, `text` a string, and
entity annotations well-formed dicts — parsing always returns a segment
list; all remaining absent fields default safely. -/
theorem c3_enrichment_total_amended (token : String) (m : List (String × JVal))
    (h : wfMessage m = true) :
    ∃ segs, parseMessageContent token (.jobj m) = .ok segs := by
  simp only [wfMessage, Bool.and_eq_true] at h
  obtain ⟨⟨⟨⟨⟨⟨⟨⟨h1, h2⟩, h3⟩, h4⟩, h5⟩, h6⟩, h7⟩, h8⟩, h9⟩ := h
  rcases photoSegments_total token m h1 with ⟨ps, hps⟩
  rcases videoSegments_total token m h2 with ⟨vs, hvs⟩
  rcases voiceSegments_total token m h3 with ⟨vos, hvos⟩
  rcases audioSegments_total token m h4 with ⟨aus, haus⟩
  rcases documentSegments_total token m h5 with ⟨ds, hds⟩
  rcases stickerSegments_total token m h6 with ⟨ss, hss⟩
  rcases withReplySegment_total m
    (textSegments m ++ ps ++ vs ++ vos ++ aus ++ ds ++ ss) h7 with ⟨wr, hwr⟩
  cases htv : lookupD m "text" (.jstr "") <;> simp only [htv] at h8 <;>
    try cases h8
  rename_i ts
  cases hev : lookupD m "entities" (.jarr []) <;> simp only [hev] at h9 <;>
    try cases h9
  rename_i es
  rcases parseMentionsList_total m ts es htv hev h9 with ⟨mens, hmens⟩
  refine ⟨wr ++ mens, ?_⟩
  simp only [parseMessageContent]
  rw [hps, ok_bind, hvs, ok_bind, hvos, ok_bind, haus, ok_bind, hds, ok_bind,
    hss, ok_bind, hwr, ok_bind, hmens, ok_bind]

theorem c3_amended_witness :
    wfMessage [("text", JVal.jstr "hi"),
      ("photo", JVal.jarr [JVal.jobj [("file_id", JVal.jstr "f")]])] = true ∧
    ∃ segs, parseMessageContent "tok"
      (.jobj [("text", .jstr "hi"),
        ("photo", .jarr [.jobj [("file_id", .jstr "f")]])]) = .ok segs :=
  ⟨rfl, c3_enrichment_total_amended "tok"
    [("text", .jstr "hi"), ("photo", .jarr [.jobj [("file_id", .jstr "f")]])] rfl⟩

/-! ## C6 -/

/-- C6: whenever a message object contains a quoted message, the parsed
segment sequence starts with the reply segment; every other segment keeps
its place in a content block (typed text/image/video/voice/audio/file, in
source insertion order) followed by the mention segments derived from
entity parsing, which are appended after all content segments. -/
theorem c6_reply_first (token : String) (m : List (String × JVal))
    (segs : List JVal)
    (hr : hasKey m "reply_to_message" = true)
    (hok : parseMessageContent token (.jobj m) = .ok segs) :
    ∃ rs content mentions,
      segs = rs :: content ++ mentions ∧
      segTypeOf rs = some (.jstr "reply") ∧
      (∀ s ∈ content, ∃ t, segTypeOf s = some (.jstr t) ∧ t ∈ contentTypeNames) ∧
      (∀ s ∈ mentions, segTypeOf s = some (.jstr "at")) := by
  unfold parseMessageContent at hok
  rcases exceptBind_ok hok with ⟨ps, hps, h2⟩
  rcases exceptBind_ok h2 with ⟨vs, hvs, h3⟩
  rcases exceptBind_ok h3 with ⟨vos, hvos, h4⟩
  rcases exceptBind_ok h4 with ⟨aus, haus, h5⟩
  rcases exceptBind_ok h5 with ⟨ds, hds, h6⟩
  rcases exceptBind_ok h6 with ⟨ss, hss, h7⟩
  rcases exceptBind_ok h7 with ⟨wr, hwr, h8⟩
  rcases exceptBind_ok h8 with ⟨mens, hmens, h9⟩
  cases h9
  unfold withReplySegment at hwr
  rw [if_pos hr] at hwr
  rcases exceptBind_ok hwr with ⟨mid, hmid, hw2⟩
  rcases exceptBind_ok hw2 with ⟨fromU, hfrom, hw3⟩
  rcases exceptBind_ok hw3 with ⟨uid, huid, hw4⟩
  cases hw4
  refine ⟨mkSegment "reply"
      [("message_id", .jstr (pyStr mid)), ("user_id", .jstr (pyStr uid))],
    textSegments m ++ ps ++ vs ++ vos ++ aus ++ ds ++ ss, mens,
    by simp, rfl, ?_, parseMentionsList_types hmens⟩
  intro s hs
  simp only [List.append_assoc, List.mem_append] at hs
  rcases hs with h | h | h | h | h | h | h
  · exact ⟨"text", textSegments_types m s h, by decide⟩
  · exact ⟨"image", photoSegments_types hps s h, by decide⟩
  · exact ⟨"video", videoSegments_types hvs s h, by decide⟩
  · exact ⟨"voice", voiceSegments_types hvos s h, by decide⟩
  · exact ⟨"audio", audioSegments_types haus s h, by decide⟩
  · exact ⟨"file", documentSegments_types hds s h, by decide⟩
  · exact ⟨"image", stickerSegments_types hss s h, by decide⟩

/-! ## C5 -/

theorem isMedia_type_elim {v : JVal}
    (hm : mediaTypeNames.any (fun t => isStr v t) = true) :
    ∃ ty, v = .jstr ty ∧ ty ∈ mediaTypeNames := by
  rcases List.any_eq_true.mp hm with ⟨ty, hmem, hstr⟩
  cases v <;> simp [isStr] at hstr
  case jstr s => exact ⟨s, rfl, by rw [hstr]; exact hmem⟩

theorem scanSegment_nonmedia {acc : ScanAcc} {s : JVal} {r : ScanAcc}
    (hm : isMediaSegment s = false) (h : scanSegment acc s = .ok r) :
    r.mediaSegment = acc.mediaSegment := by
  unfold scanSegment at h
  rcases exceptBind_ok h with ⟨segType, h1, h2⟩
  rcases exceptBind_ok h2 with ⟨data, h3, h4⟩
  cases s with
  | jobj f =>
    simp only [pyGetD] at h1 h3
    cases h1
    cases h3
    simp only [isMediaSegment] at hm
    split at h4
    · rcases exceptBind_ok h4 with ⟨t, ht, h5⟩
      cases h5
      rfl
    · split at h4
      · rename_i hcond
        rw [hm] at hcond
        exact absurd hcond (by decide)
      · split at h4
        · rcases exceptBind_ok h4 with ⟨uid, hu, h5⟩
          rcases exceptBind_ok h5 with ⟨mt, hmt, h6⟩
          rcases exceptBind_ok h6 with ⟨pr, hp, h7⟩
          obtain ⟨p, e2⟩ := pr
          cases h7
          rfl
        · split at h4
          · rcases exceptBind_ok h4 with ⟨uid, hu, h5⟩
            rcases exceptBind_ok h5 with ⟨nm, hnm, h6⟩
            rcases exceptBind_ok h6 with ⟨pr, hp, h7⟩
            obtain ⟨p, e2⟩ := pr
            cases h7
            rfl
          · split at h4
            · rcases exceptBind_ok h4 with ⟨msgId, hmsg, h5⟩
              split at h5
              · split at h5 <;> cases h5 <;> rfl
              · cases h5
                rfl
            · cases h4
              rfl
  | jnull => exact Except.noConfusion h1
  | jbool b => exact Except.noConfusion h1
  | jint n => exact Except.noConfusion h1
  | jstr str => exact Except.noConfusion h1
  | jarr xs => exact Except.noConfusion h1

theorem scanSegment_media_skip {acc : ScanAcc} {s : JVal}
    (hm : isMediaSegment s = true) (hsome : acc.mediaSegment.isSome = true) :
    scanSegment acc s = .ok acc := by
  cases s <;> simp only [isMediaSegment] at hm <;> try cases hm
  rename_i f
  rcases isMedia_type_elim hm with ⟨ty, hty, hmem⟩
  rcases Option.isSome_iff_exists.mp hsome with ⟨x, hx⟩
  have htext : isStr (lookupD f "type" .jnull) "text" = false := by
    rw [hty]
    fin_cases hmem <;> decide
  unfold scanSegment
  rw [show pyGetD (JVal.jobj f) "type" .jnull =
    .ok (lookupD f "type" .jnull) from rfl, ok_bind]
  rw [show pyGetD (JVal.jobj f) "data" (.jobj []) =
    .ok (lookupD f "data" (.jobj [])) from rfl, ok_bind]
  rw [if_neg (by rw [htext]; exact Bool.false_ne_true), if_pos hm, hx]

theorem scanSegment_media_first {f : List (String × JVal)} {ty : String}
    {acc : ScanAcc}
    (hacc : acc.mediaSegment = none)
    (hty : lookupD f "type" .jnull = .jstr ty) (hmem : ty ∈ mediaTypeNames) :
    scanSegment acc (.jobj f) =
      .ok { acc with mediaSegment := some (ty, lookupD f "data" (.jobj [])) } := by
  have htext : isStr (JVal.jstr ty) "text" = false := by
    fin_cases hmem <;> decide
  have hany : mediaTypeNames.any (fun t => isStr (lookupD f "type" .jnull) t) = true := by
    rw [hty]
    apply List.any_eq_true.mpr
    exact ⟨ty, hmem, by simp [isStr]⟩
  unfold scanSegment
  rw [show pyGetD (JVal.jobj f) "type" .jnull =
    .ok (lookupD f "type" .jnull) from rfl, ok_bind]
  rw [show pyGetD (JVal.jobj f) "data" (.jobj []) =
    .ok (lookupD f "data" (.jobj [])) from rfl, ok_bind]
  rw [hty] at hany ⊢
  rw [if_neg (by rw [htext]; exact Bool.false_ne_true), if_pos hany, hacc]

theorem scanSegment_keep {acc : ScanAcc} {s : JVal} {r : ScanAcc} {x : String × JVal}
    (h : scanSegment acc s = .ok r) (hacc : acc.mediaSegment = some x) :
    r.mediaSegment = some x := by
  by_cases hm : isMediaSegment s = true
  · rw [scanSegment_media_skip hm (by rw [hacc]; rfl)] at h
    cases h
    exact hacc
  · have hm' : isMediaSegment s = false := by
      revert hm; cases isMediaSegment s <;> simp
    rw [scanSegment_nonmedia hm' h]
    exact hacc

theorem foldScan_nonmedia {pre : List JVal}
    (hpre : ∀ s ∈ pre, isMediaSegment s = false) {acc r : ScanAcc}
    (h : List.foldlM scanSegment acc pre = .ok r) :
    r.mediaSegment = acc.mediaSegment := by
  induction pre generalizing acc with
  | nil =>
    rw [List.foldlM_nil] at h
    cases h
    rfl
  | cons s rest ih =>
    rw [List.foldlM_cons] at h
    rcases exceptBind_ok h with ⟨acc1, h1, h2⟩
    rw [ih (fun x hx => hpre x (by simp [hx])) h2]
    exact scanSegment_nonmedia (hpre s (by simp)) h1

theorem foldScan_keep {l : List JVal} {acc r : ScanAcc} {x : String × JVal}
    (h : List.foldlM scanSegment acc l = .ok r)
    (hacc : acc.mediaSegment = some x) : r.mediaSegment = some x := by
  induction l generalizing acc with
  | nil =>
    rw [List.foldlM_nil] at h
    cases h
    exact hacc
  | cons s rest ih =>
    rw [List.foldlM_cons] at h
    rcases exceptBind_ok h with ⟨acc1, h1, h2⟩
    exact ih h2 (scanSegment_keep h1 hacc)

theorem foldScan_filter (l : List JVal) (acc : ScanAcc)
    (hacc : acc.mediaSegment.isSome = true) :
    List.foldlM scanSegment acc l =
      List.foldlM scanSegment acc (l.filter (fun s => !isMediaSegment s)) := by
  induction l generalizing acc with
  | nil => rfl
  | cons s rest ih =>
    by_cases hm : isMediaSegment s = true
    · rw [List.foldlM_cons, scanSegment_media_skip hm hacc, ok_bind,
        List.filter_cons, if_neg (by simp [hm]), ih acc hacc]
    · have hm' : isMediaSegment s = false := by
        revert hm; cases isMediaSegment s <;> simp
      rw [List.filter_cons, if_pos (by simp [hm']), List.foldlM_cons,
        List.foldlM_cons]
      cases hs : scanSegment acc s with
      | error e =>
        cases e
        rw [error_bind, error_bind]
      | ok acc1 =>
        rw [ok_bind, ok_bind]
        exact ih acc1 (by rw [scanSegment_nonmedia hm' hs]; exact hacc)

/-- C5: the outbound translator keeps only the first media segment — with a
non-media block `pre`, a first media segment of type `ty`, and an arbitrary
tail, translation is unchanged when every later media segment is deleted
(they are dropped, not queued); and whenever it returns a descriptor, that
descriptor's endpoint and media params field come from the fixed per-type
lookup applied to the *first* media segment's type, with the media value
drawn from the first media segment's data. -/
theorem c5_single_media (st : SendState) (pre rest : List JVal)
    (firstf : List (String × JVal)) (ty : String)
    (hpre : ∀ s ∈ pre, isMediaSegment s = false)
    (hty : lookupD firstf "type" .jnull = .jstr ty)
    (hmem : ty ∈ mediaTypeNames) :
    convertOb12ToTelegram st (pre ++ .jobj firstf :: rest) =
      convertOb12ToTelegram st
        (pre ++ .jobj firstf :: rest.filter (fun s => !isMediaSegment s)) ∧
    ∀ d, convertOb12ToTelegram st (pre ++ .jobj firstf :: rest) = .ok d →
      d.endpoint = mediaEndpointFor ty ∧
      ∃ mf, mediaFileOf (lookupD firstf "data" (.jobj [])) = .ok mf ∧
        lookupKV d.params (mediaFieldFor ty) = some mf := by
  constructor
  · simp only [convertOb12ToTelegram]
    rw [List.foldlM_append, List.foldlM_append]
    cases hfold : List.foldlM scanSegment ⟨[], [], none, .jnull⟩ pre with
    | error e =>
      cases e
      rw [error_bind, error_bind, error_bind, error_bind]
    | ok acc0 =>
      rw [ok_bind, ok_bind, List.foldlM_cons, List.foldlM_cons]
      have hacc0 : acc0.mediaSegment = none := foldScan_nonmedia hpre hfold
      rw [scanSegment_media_first hacc0 hty hmem, ok_bind, ok_bind,
        foldScan_filter rest _ (by rfl)]
  · intro d hd
    simp only [convertOb12ToTelegram] at hd
    rw [List.foldlM_append] at hd
    rcases exceptBind_ok hd with ⟨accF, hfold, hcont⟩
    rcases exceptBind_ok hfold with ⟨acc0, hpre0, hrest⟩
    rw [List.foldlM_cons] at hrest
    have hacc0 : acc0.mediaSegment = none := foldScan_nonmedia hpre hpre0
    rw [scanSegment_media_first hacc0 hty hmem, ok_bind] at hrest
    have haccF : accF.mediaSegment =
        some (ty, lookupD firstf "data" (.jobj [])) :=
      foldScan_keep hrest rfl
    rcases exceptBind_ok hcont with ⟨pe, hpe, hcont2⟩
    rcases exceptBind_ok hcont2 with ⟨ftb, hftb, hcont3⟩
    rw [haccF] at hcont3
    rcases exceptBind_ok hcont3 with ⟨mf, hmf, hcont4⟩
    rcases exceptBind_ok hcont4 with ⟨cap, hcap, hcont5⟩
    cases hcont5
    refine ⟨rfl, mf, hmf, ?_⟩
    have hne : ("caption" : String) ≠ mediaFieldFor ty := by
      fin_cases hmem <;> decide
    rw [lookupKV_setK_ne _ _ _ _ hne, lookupKV_setK_self]

/-! ## Preservation of the event envelope by the enrichment handlers -/

theorem pwKeep_refl (base : Event) : pwKeep base base := ⟨rfl, rfl, rfl⟩

theorem pwKeep_setMany (base : Event) (us : List (String × JVal))
    (h : ∀ p ∈ us, p.1 ≠ "id" ∧ p.1 ≠ "type" ∧ p.1 ≠ "platform") :
    pwKeep base (setMany base us) :=
  ⟨lookupKV_setMany_not_mem _ _ _ (fun p hp => (h p hp).1),
   lookupKV_setMany_not_mem _ _ _ (fun p hp => (h p hp).2.1),
   lookupKV_setMany_not_mem _ _ _ (fun p hp => (h p hp).2.2)⟩

theorem handlePoll_pwKeep {raw : List (String × JVal)} {base e : Event}
    (h : handlePoll raw base = .ok e) : pwKeep base e := by
  unfold handlePoll at h
  rcases exceptBind_ok h with ⟨poll, h1, h2⟩
  split at h2
  · cases h2
    apply pwKeep_setMany
    intro q hq
    fin_cases hq <;> exact ⟨by simp, by simp, by simp⟩
  · exact Except.noConfusion h2

theorem handlePollAnswer_pwKeep {raw : List (String × JVal)} {base e : Event}
    (h : handlePollAnswer raw base = .ok e) : pwKeep base e := by
  unfold handlePollAnswer at h
  rcases exceptBind_ok h with ⟨answer, h1, h2⟩
  split at h2
  · split at h2
    · cases h2
      apply pwKeep_setMany
      intro q hq
      fin_cases hq <;> exact ⟨by simp, by simp, by simp⟩
    · exact Except.noConfusion h2
  · exact Except.noConfusion h2

theorem handleChosenInlineResult_pwKeep {raw : List (String × JVal)}
    {base e : Event}
    (h : handleChosenInlineResult raw base = .ok e) : pwKeep base e := by
  unfold handleChosenInlineResult at h
  rcases exceptBind_ok h with ⟨result, h1, h2⟩
  split at h2
  · split at h2
    · cases h2
      apply pwKeep_setMany
      intro q hq
      fin_cases hq <;> exact ⟨by simp, by simp, by simp⟩
    · exact Except.noConfusion h2
  · exact Except.noConfusion h2

theorem handleInlineQuery_pwKeep {raw : List (String × JVal)} {base e : Event}
    (h : handleInlineQuery raw base = .ok e) : pwKeep base e := by
  unfold handleInlineQuery at h
  rcases exceptBind_ok h with ⟨query, h1, h2⟩
  split at h2
  · split at h2
    · cases h2
      apply pwKeep_setMany
      intro q hq
      fin_cases hq <;> exact ⟨by simp, by simp, by simp⟩
    · exact Except.noConfusion h2
  · exact Except.noConfusion h2

theorem handleShippingQuery_pwKeep {raw : List (String × JVal)} {base e : Event}
    (h : handleShippingQuery raw base = .ok e) : pwKeep base e := by
  unfold handleShippingQuery at h
  rcases exceptBind_ok h with ⟨shipping, h1, h2⟩
  split at h2
  · split at h2
    · cases h2
      apply pwKeep_setMany
      intro q hq
      fin_cases hq <;> exact ⟨by simp, by simp, by simp⟩
    · exact Except.noConfusion h2
  · exact Except.noConfusion h2

theorem handlePreCheckoutQuery_pwKeep {raw : List (String × JVal)}
    {base e : Event}
    (h : handlePreCheckoutQuery raw base = .ok e) : pwKeep base e := by
  unfold handlePreCheckoutQuery at h
  rcases exceptBind_ok h with ⟨checkout, h1, h2⟩
  split at h2
  · split at h2
    · cases h2
      apply pwKeep_setMany
      intro q hq
      fin_cases hq <;> exact ⟨by simp, by simp, by simp⟩
    · exact Except.noConfusion h2
  · exact Except.noConfusion h2

theorem handleCallbackQuery_pwKeep {raw : List (String × JVal)} {base e : Event}
    (h : handleCallbackQuery raw base = .ok e) : pwKeep base e := by
  unfold handleCallbackQuery at h
  rcases exceptBind_ok h with ⟨callback, h1, h2⟩
  split at h2
  · split at h2
    · rcases exceptBind_ok h2 with ⟨msgUpds, h3, h4⟩
      cases h4
      have hkeys : ∀ q ∈ msgUpds,
          q.1 = "message_id" ∨ q.1 = "channel_id" ∨ q.1 = "group_id" := by
        intro q hq
        unfold callbackMessageUpds at h3
        split at h3
        · split at h3
          · rcases exceptBind_ok h3 with ⟨chatUpds, h5, h6⟩
            cases h6
            rcases List.mem_append.mp hq with hq1 | hq2
            · simp at hq1
              subst hq1
              exact Or.inl rfl
            · unfold callbackChatUpds at h5
              split at h5
              · split at h5
                · cases h5
                  split at hq2 <;> simp at hq2 <;> subst hq2 <;> simp
                · exact Except.noConfusion h5
              · cases h5
                simp at hq2
          · exact Except.noConfusion h3
        · cases h3
          simp at hq
      apply pwKeep_setMany
      intro q hq
      rcases List.mem_append.mp hq with hq1 | hq2
      · fin_cases hq1 <;> exact ⟨by simp, by simp, by simp⟩
      · rcases hkeys q hq2 with hk | hk | hk <;>
          exact ⟨by simp [hk], by simp [hk], by simp [hk]⟩
    · exact Except.noConfusion h2
  · exact Except.noConfusion h2

theorem handleChatMember_pwKeep {raw : List (String × JVal)} {base e : Event}
    (h : handleChatMember raw base = .ok e) : pwKeep base e := by
  unfold handleChatMember at h
  rcases exceptBind_ok h with ⟨pr, h1, h2⟩
  split at h2
  · split at h2
    · split at h2
      · cases h2
        apply pwKeep_setMany
        intro q hq
        rcases List.mem_append.mp hq with hq1 | hq2
        · fin_cases hq1 <;> exact ⟨by simp, by simp, by simp⟩
        · split at hq2 <;> simp at hq2 <;> subst hq2 <;>
            exact ⟨by simp, by simp, by simp⟩
      · exact Except.noConfusion h2
    · exact Except.noConfusion h2
  · exact Except.noConfusion h2

theorem handleChatJoinRequest_pwKeep {raw : List (String × JVal)}
    {base e : Event}
    (h : handleChatJoinRequest raw base = .ok e) : pwKeep base e := by
  unfold handleChatJoinRequest at h
  rcases exceptBind_ok h with ⟨request, h1, h2⟩
  split at h2
  · split at h2
    · split at h2
      · rcases exceptBind_ok h2 with ⟨comment, hc, h3⟩
        cases h3
        apply pwKeep_setMany
        intro q hq
        rcases List.mem_append.mp hq with hq1 | hq2
        · fin_cases hq1 <;> exact ⟨by simp, by simp, by simp⟩
        · split at hq2 <;> simp at hq2 <;> subst hq2 <;>
            exact ⟨by simp, by simp, by simp⟩
      · exact Except.noConfusion h2
    · exact Except.noConfusion h2
  · exact Except.noConfusion h2

theorem mem_ite_singleton {α : Type} {q x y : α} {c d : Prop}
    [Decidable c] [Decidable d]
    (h : q ∈ if c then [x] else if d then [y] else []) : q = x ∨ q = y := by
  split at h
  · simp at h
    exact Or.inl h
  · split at h
    · simp at h
      exact Or.inr h
    · simp at h

theorem messageCore_pwKeep {now : Int} {token : String} {message : JVal}
    {isEdited : Bool} {base e : Event}
    (h : messageCore now token message isEdited base = .ok e) :
    pwKeep base e := by
  unfold messageCore at h
  split at h
  · split at h
    · rcases exceptBind_ok h with ⟨segments, hs, h2⟩
      rcases exceptBind_ok h2 with ⟨altMessage, ha, h3⟩
      rcases exceptBind_ok h3 with ⟨fromUpds, hf, h4⟩
      cases h4
      have hkeys : ∀ q ∈ fromUpds,
          q.1 = "user_id" ∨ q.1 = "user_nickname" := by
        intro q hq
        unfold messageFromUpds at hf
        split at hf
        · split at hf
          · cases hf
            simp at hq
            rcases hq with hq | hq <;> subst hq <;> simp
          · exact Except.noConfusion hf
        · cases hf
          simp at hq
      apply pwKeep_setMany
      intro q hq
      simp only [List.append_assoc, List.mem_append] at hq
      rcases hq with hq | hq | hq | hq | hq
      · fin_cases hq <;> exact ⟨by simp, by simp, by simp⟩
      · rcases hkeys q hq with hk | hk <;>
          exact ⟨by simp [hk], by simp [hk], by simp [hk]⟩
      · split at hq <;> simp at hq <;> subst hq <;>
          exact ⟨by simp, by simp, by simp⟩
      · simp at hq
        subst hq
        exact ⟨by simp, by simp, by simp⟩
      · rcases mem_ite_singleton hq with hq | hq <;> subst hq <;>
          exact ⟨by simp, by simp, by simp⟩
    · exact Except.noConfusion h
  · exact Except.noConfusion h

theorem handleMessage_pwKeep {now : Int} {token : String}
    {raw : List (String × JVal)} {base e : Event}
    (h : handleMessage now token raw base = .ok e) : pwKeep base e := by
  unfold handleMessage at h
  split at h
  · exact messageCore_pwKeep h
  · cases h
    exact pwKeep_refl base

theorem handleNotice_pwKeep {raw : List (String × JVal)} {base e : Event}
    (h : handleNotice raw base = .ok e) : pwKeep base e := by
  unfold handleNotice at h
  split at h
  · exact Except.noConfusion h
  · split at h
    · exact handleCallbackQuery_pwKeep h
    · split at h
      · exact handlePoll_pwKeep h
      · split at h
        · exact handlePollAnswer_pwKeep h
        · split at h
          · exact handleChosenInlineResult_pwKeep h
          · split at h
            · exact handleChatMember_pwKeep h
            · cases h
              exact pwKeep_refl base

theorem handleRequest_pwKeep {raw : List (String × JVal)} {base e : Event}
    (h : handleRequest raw base = .ok e) : pwKeep base e := by
  unfold handleRequest at h
  split at h
  · exact Except.noConfusion h
  · split at h
    · exact handleInlineQuery_pwKeep h
    · split at h
      · exact handleShippingQuery_pwKeep h
      · split at h
        · exact handlePreCheckoutQuery_pwKeep h
        · split at h
          · exact handleChatJoinRequest_pwKeep h
          · cases h
            exact pwKeep_refl base

/-! ## C4 amended -/

theorem mediaFieldFor_ne_entities (ty : String) :
    mediaFieldFor ty ≠ "entities" := by
  unfold mediaFieldFor
  split_ifs <;> decide

theorem mediaFieldFor_ne_text (ty : String) : mediaFieldFor ty ≠ "text" := by
  unfold mediaFieldFor
  split_ifs <;> decide

theorem lookupKV_replyParams_ne (tid v : JVal) (k : String)
    (hk : ("chat_id" : String) ≠ k)
    (hk2 : ("reply_to_message_id" : String) ≠ k) :
    lookupKV (if pyTruthy v = true then
        match pyToInt v with
        | Except.ok n => setK [("chat_id", tid)] "reply_to_message_id" (JVal.jint n)
        | Except.error a => [("chat_id", tid)]
      else [("chat_id", tid)]) k = none := by
  split
  · split
    · rw [lookupKV_setK_ne _ _ _ _ hk2]
      simp [lookupKV, hk]
    · simp [lookupKV, hk]
  · simp [lookupKV, hk]

theorem atall_text_ne_empty (s : String) : "@All " ++ s ≠ "" := by
  intro h
  have h2 := congrArg String.length h
  simp [String.length_append] at h2
  exact absurd h2.1 (by decide)

/-- C4 amended: the mention-all literal is prepended to the final text
*after* modifier-level mention entities have been appended with offsets
computed against the prefix-less text — so toggling the mention-all flag
leaves the emitted entity list unchanged and only prepends the literal to
the rendered text (when the text is not the single-space placeholder). -/
theorem c4_atall_after_mentions_amended (st : SendState) (segs : List JVal)
    (d1 d2 : CallDescriptor)
    (h1 : convertOb12ToTelegram { st with atAll := true } segs = .ok d1)
    (h2 : convertOb12ToTelegram { st with atAll := false } segs = .ok d2) :
    lookupKV d1.params "entities" = lookupKV d2.params "entities" ∧
    ∀ t2, lookupKV d2.params "text" = some (.jstr t2) → t2 ≠ " " →
      lookupKV d1.params "text" = some (.jstr ("@All " ++ t2)) := by
  obtain ⟨tid, auids, rmid, aall⟩ := st
  simp only [convertOb12ToTelegram] at h1 h2
  rcases exceptBind_ok h1 with ⟨acc, hacc, hc1⟩
  rcases exceptBind_ok h2 with ⟨acc2, hacc2, hc2⟩
  rw [hacc] at hacc2
  cases hacc2
  rcases exceptBind_ok hc1 with ⟨pe, hpe, hd1⟩
  rcases exceptBind_ok hc2 with ⟨pe2, hpe2, hd2⟩
  rw [hpe] at hpe2
  cases hpe2
  rcases exceptBind_ok hd1 with ⟨ftb, hftb, he1⟩
  rcases exceptBind_ok hd2 with ⟨ftb2, hftb2, he2⟩
  rw [hftb] at hftb2
  cases hftb2
  cases hms : acc.mediaSegment with
  | some tydata =>
    obtain ⟨ty, data⟩ := tydata
    rw [hms] at he1 he2
    rcases exceptBind_ok he1 with ⟨mf, hmf, he1b⟩
    rcases exceptBind_ok he2 with ⟨mf2, hmf2, he2b⟩
    rw [hmf] at hmf2
    cases hmf2
    rcases exceptBind_ok he1b with ⟨cap, hcap, he1c⟩
    rcases exceptBind_ok he2b with ⟨cap2, hcap2, he2c⟩
    rw [hcap] at hcap2
    cases hcap2
    cases he1c
    cases he2c
    dsimp only
    constructor
    · rw [lookupKV_setK_ne _ "caption" "entities" _ (by decide),
        lookupKV_setK_ne _ "caption" "entities" _ (by decide)]
    · intro t2 ht2 hne
      rw [lookupKV_setK_ne _ "caption" "text" _ (by decide),
        lookupKV_setK_ne _ (mediaFieldFor ty) "text" _ (mediaFieldFor_ne_text ty),
        lookupKV_replyParams_ne tid _ "text" (by decide) (by decide)] at ht2
      exact Option.noConfusion ht2
  | none =>
    rw [hms] at he1 he2
    cases he1
    cases he2
    dsimp only
    have hfneg : (if false = true then "@All " ++ ftb else ftb) = ftb :=
      if_neg (by decide)
    constructor
    · by_cases hemp : pe.2.isEmpty = true
      · rw [if_pos hemp, if_pos hemp,
          lookupKV_setK_ne _ "text" "entities" _ (by decide),
          lookupKV_setK_ne _ "text" "entities" _ (by decide)]
      · rw [if_neg hemp, if_neg hemp, lookupKV_setK_self, lookupKV_setK_self]
    · intro t2 ht2 hne
      by_cases hemp : pe.2.isEmpty = true
      · rw [if_pos hemp, lookupKV_setK_self] at ht2
        rw [if_pos hemp, lookupKV_setK_self]
        rw [hfneg] at ht2
        rw [if_true]
        injection ht2 with h3
        injection h3 with h4
        subst h4
        by_cases hftbe : ftb = ""
        · rw [if_pos hftbe] at hne
          exact absurd rfl hne
        · rw [if_neg hftbe]
          rw [if_neg (atall_text_ne_empty ftb)]
      · rw [if_neg hemp, lookupKV_setK_ne _ "entities" "text" _ (by decide),
          lookupKV_setK_self] at ht2
        rw [if_neg hemp, lookupKV_setK_ne _ "entities" "text" _ (by decide),
          lookupKV_setK_self]
        rw [hfneg] at ht2
        rw [if_true]
        injection ht2 with h3
        injection h3 with h4
        subst h4
        by_cases hftbe : ftb = ""
        · rw [if_pos hftbe] at hne
          exact absurd rfl hne
        · rw [if_neg hftbe]
          rw [if_neg (atall_text_ne_empty ftb)]

theorem c4_amended_witness :
    convertOb12ToTelegram ⟨.jstr "c", [], .jnull, true⟩
      [.jobj [("type", .jstr "text"), ("data", .jobj [("text", .jstr "hi")])]] =
      .ok ⟨"sendMessage", [("chat_id", .jstr "c"), ("text", .jstr "@All hi")]⟩ ∧
    convertOb12ToTelegram ⟨.jstr "c", [], .jnull, false⟩
      [.jobj [("type", .jstr "text"), ("data", .jobj [("text", .jstr "hi")])]] =
      .ok ⟨"sendMessage", [("chat_id", .jstr "c"), ("text", .jstr "hi")]⟩ ∧
    lookupKV [("chat_id", JVal.jstr "c"), ("text", JVal.jstr "@All hi")]
        "entities" =
      lookupKV [("chat_id", JVal.jstr "c"), ("text", JVal.jstr "hi")] "entities" ∧
    ∀ t2, lookupKV [("chat_id", JVal.jstr "c"), ("text", JVal.jstr "hi")]
        "text" = some (.jstr t2) → t2 ≠ " " →
      lookupKV [("chat_id", JVal.jstr "c"), ("text", JVal.jstr "@All hi")]
        "text" = some (.jstr ("@All " ++ t2)) := by
  have h := c4_atall_after_mentions_amended ⟨.jstr "c", [], .jnull, false⟩
    [.jobj [("type", .jstr "text"), ("data", .jobj [("text", .jstr "hi")])]]
    ⟨"sendMessage", [("chat_id", .jstr "c"), ("text", .jstr "@All hi")]⟩
    ⟨"sendMessage", [("chat_id", .jstr "c"), ("text", .jstr "hi")]⟩
    rfl rfl
  exact ⟨rfl, rfl, h.1, h.2⟩

theorem c5_witness :
    lookupD [("type", JVal.jstr "image"),
      ("data", JVal.jobj [("file_id", JVal.jstr "A")])] "type" .jnull =
      .jstr "image" ∧
    (convertOb12ToTelegram ⟨.jstr "c", [], .jnull, false⟩
       ([] ++ .jobj [("type", .jstr "image"),
          ("data", .jobj [("file_id", .jstr "A")])] ::
        [JVal.jobj [("type", .jstr "video"),
          ("data", .jobj [("file_id", .jstr "B")])]]) =
     convertOb12ToTelegram ⟨.jstr "c", [], .jnull, false⟩
       ([] ++ .jobj [("type", .jstr "image"),
          ("data", .jobj [("file_id", .jstr "A")])] ::
        List.filter (fun s => !isMediaSegment s)
          [JVal.jobj [("type", .jstr "video"),
            ("data", .jobj [("file_id", .jstr "B")])]])) ∧
    (CallDescriptor.mk "sendPhoto"
       [("chat_id", .jstr "c"), ("photo", .jstr "A"),
        ("caption", .jstr "")]).endpoint = mediaEndpointFor "image" ∧
    ∃ mf, mediaFileOf (lookupD [("type", JVal.jstr "image"),
        ("data", JVal.jobj [("file_id", JVal.jstr "A")])] "data" (.jobj [])) =
        .ok mf ∧
      lookupKV [("chat_id", JVal.jstr "c"), ("photo", JVal.jstr "A"),
        ("caption", JVal.jstr "")] (mediaFieldFor "image") = some mf := by
  have h := c5_single_media ⟨.jstr "c", [], .jnull, false⟩ []
    [JVal.jobj [("type", .jstr "video"), ("data", .jobj [("file_id", .jstr "B")])]]
    [("type", .jstr "image"), ("data", .jobj [("file_id", .jstr "A")])]
    "image" (by intro s hs; cases hs) rfl (by decide)
  exact ⟨rfl, h.1, (h.2 _ rfl).1, (h.2 _ rfl).2⟩

theorem c6_witness :
    hasKey [("reply_to_message", JVal.jobj [("message_id", JVal.jint 7)]),
            ("text", JVal.jstr "hi")] "reply_to_message" = true ∧
    ∃ rs content mentions,
      ([mkSegment "reply" [("message_id", .jstr "7"), ("user_id", .jstr "")],
        mkSegment "text" [("text", .jstr "hi")]] : List JVal) =
          rs :: content ++ mentions ∧
      segTypeOf rs = some (.jstr "reply") ∧
      (∀ s ∈ content, ∃ t, segTypeOf s = some (.jstr t) ∧ t ∈ contentTypeNames) ∧
      (∀ s ∈ mentions, segTypeOf s = some (.jstr "at")) :=
  ⟨rfl, c6_reply_first "tok"
    [("reply_to_message", JVal.jobj [("message_id", JVal.jint 7)]),
     ("text", JVal.jstr "hi")] _ rfl rfl⟩

/-! ## C1 amended -/

theorem detect_codomain {raw : List (String × JVal)} {c k : String}
    (h : detectEventType raw = (some c, k)) :
    c = "message" ∨ c = "notice" ∨ c = "request" := by
  unfold detectEventType at h
  split at h
  · rename_i p hp
    rw [Prod.mk.injEq] at h
    obtain ⟨h1, h2⟩ := h
    rw [Option.some.injEq] at h1
    subst h1
    have hm := List.mem_of_find?_eq_some hp
    fin_cases hm <;> simp
  · rw [Prod.mk.injEq] at h
    exact Option.noConfusion h.1

/-- **C1** (amended).  Unconditional totality fails — see
`c1_counterexample`, where a mapping with an `update_id` makes conversion
raise on a malformed photo record.  The amended guarantee proven here, for
every mapping: (1) whenever conversion does return an event, that event's
`id` is the stringified `update_id`, its `type` is a non-empty string, and
its `platform` is `"telegram"`; (2) a mapping with a non-null `update_id`
and no recognized top-level key is never dropped — conversion returns
(produces, not merely preserves) exactly the unknown-type event, whose
`type` is `"unknown"` and which carries the `warning` text and the fallback
`alt_message`. -/
theorem c1_totality_amended (now : Int) (token : String)
    (raw : List (String × JVal)) :
    (∀ e, convert now token (.jobj raw) = .ok (some e) →
      lookupKV e "id" =
        some (.jstr (pyStr (lookupD raw "update_id" .jnull))) ∧
      (∃ t, lookupKV e "type" = some (.jstr t) ∧ t ≠ "") ∧
      lookupKV e "platform" = some (.jstr "telegram")) ∧
    (isNull (lookupD raw "update_id" .jnull) = false →
      (detectEventType raw).1 = none →
      convert now token (.jobj raw) =
        .ok (some (createUnknownEvent now raw
          (lookupD raw "update_id" .jnull))) ∧
      lookupKV (createUnknownEvent now raw (lookupD raw "update_id" .jnull))
          "type" = some (.jstr "unknown") ∧
      lookupKV (createUnknownEvent now raw (lookupD raw "update_id" .jnull))
          "warning" =
        some (.jstr ("Unsupported event type: " ++ firstNonUpdateKey raw)) ∧
      lookupKV (createUnknownEvent now raw (lookupD raw "update_id" .jnull))
          "alt_message" =
        some (.jstr "This event type is not supported by this system.")) := by
  constructor
  · intro e h
    unfold convert at h
    split at h
    · rename_i fields hfe
      injection hfe with hfe2
      subst hfe2
      split at h
      · injection h with h1
        exact Option.noConfusion h1
      · split at h
        · rename_i snd heq
          injection h with h1
          injection h1 with h2
          subst h2
          exact ⟨rfl, ⟨"unknown", rfl, by decide⟩, rfl⟩
        · rename_i eventType rawType heq
          split at h
          · rename_i hm
            subst hm
            rcases exceptBind_ok h with ⟨ev, h1, h2⟩
            injection h2 with h3
            injection h3 with h4
            subst h4
            have hk := handleMessage_pwKeep h1
            refine ⟨?_, ⟨"message", ?_, by decide⟩, ?_⟩
            · rw [hk.1]
              rfl
            · rw [hk.2.1]
              rfl
            · rw [hk.2.2]
              rfl
          · split at h
            · rename_i hm1 hm
              subst hm
              rcases exceptBind_ok h with ⟨ev, h1, h2⟩
              injection h2 with h3
              injection h3 with h4
              subst h4
              have hk := handleNotice_pwKeep h1
              refine ⟨?_, ⟨"notice", ?_, by decide⟩, ?_⟩
              · rw [hk.1]
                rfl
              · rw [hk.2.1]
                rfl
              · rw [hk.2.2]
                rfl
            · split at h
              · rename_i hm1 hm2 hm
                subst hm
                rcases exceptBind_ok h with ⟨ev, h1, h2⟩
                injection h2 with h3
                injection h3 with h4
                subst h4
                have hk := handleRequest_pwKeep h1
                refine ⟨?_, ⟨"request", ?_, by decide⟩, ?_⟩
                · rw [hk.1]
                  rfl
                · rw [hk.2.1]
                  rfl
                · rw [hk.2.2]
                  rfl
              · rename_i hm1 hm2 hm3
                rcases detect_codomain heq with hc | hc | hc
                · exact absurd hc hm1
                · exact absurd hc hm2
                · exact absurd hc hm3
    · rename_i hcontra
      exact absurd rfl (hcontra raw)
  · intro hupd hdet
    refine ⟨?_, rfl, rfl, rfl⟩
    simp only [convert]
    rw [if_neg (by simp [hupd])]
    cases hdd : detectEventType raw with
    | mk fst snd =>
      cases fst with
      | none => rfl
      | some et =>
        rw [hdd] at hdet
        exact Option.noConfusion hdet

/-- Closed witness for `c1_totality_amended` at the update `c1Raw`: part
(1) applied to the event conversion produces, and part (2)'s production of
the unknown-type event with its `warning` and fallback `alt_message`, both
with the hypotheses discharged concretely. -/
theorem c1_amended_witness :
    (lookupKV (createUnknownEvent 0 c1Raw (lookupD c1Raw "update_id" .jnull))
        "id" = some (.jstr (pyStr (lookupD c1Raw "update_id" .jnull))) ∧
      (∃ t, lookupKV (createUnknownEvent 0 c1Raw
          (lookupD c1Raw "update_id" .jnull)) "type" =
          some (.jstr t) ∧ t ≠ "") ∧
      lookupKV (createUnknownEvent 0 c1Raw (lookupD c1Raw "update_id" .jnull))
        "platform" = some (.jstr "telegram")) ∧
    convert 0 "T" (.jobj c1Raw) =
      .ok (some (createUnknownEvent 0 c1Raw
        (lookupD c1Raw "update_id" .jnull))) ∧
    lookupKV (createUnknownEvent 0 c1Raw (lookupD c1Raw "update_id" .jnull))
        "type" = some (.jstr "unknown") ∧
    lookupKV (createUnknownEvent 0 c1Raw (lookupD c1Raw "update_id" .jnull))
        "warning" =
      some (.jstr ("Unsupported event type: " ++ firstNonUpdateKey c1Raw)) ∧
    lookupKV (createUnknownEvent 0 c1Raw (lookupD c1Raw "update_id" .jnull))
        "alt_message" =
      some (.jstr "This event type is not supported by this system.") :=
  ⟨(c1_totality_amended 0 "T" c1Raw).1
      (createUnknownEvent 0 c1Raw (lookupD c1Raw "update_id" .jnull)) rfl,
   (c1_totality_amended 0 "T" c1Raw).2 rfl rfl⟩

/-! ## C8 amended: token noninterference up to the url scrub -/

theorem segsRel_ok {l1 l2 : List JVal} (h : List.Forall₂ segRel l1 l2) :
    segsRel (Except.ok l1) (Except.ok l2) := h


theorem exceptRel_bind {α β : Type} {R : α → α → Prop} {S : β → β → Prop}
    {m1 m2 : Except Unit α} {f1 f2 : α → Except Unit β}
    (hm : exceptRel R m1 m2)
    (hf : ∀ a1 a2, R a1 a2 → exceptRel S (f1 a1) (f2 a2)) :
    exceptRel S (m1 >>= f1) (m2 >>= f2) := by
  cases m1 with
  | error e =>
    cases e
    cases m2 with
    | error e2 => cases e2; exact trivial
    | ok a2 => exact False.elim hm
  | ok a1 =>
    simp only [ok_bind]
    cases m2 with
    | error e2 => cases e2; exact False.elim hm
    | ok a2 => exact hf a1 a2 hm

theorem exceptRel_bind_eq {α β : Type} {S : β → β → Prop}
    {m1 m2 : Except Unit α} {f1 f2 : α → Except Unit β}
    (hm : m1 = m2) (hf : ∀ a, exceptRel S (f1 a) (f2 a)) :
    exceptRel S (m1 >>= f1) (m2 >>= f2) := by
  subst hm
  cases m1 with
  | error e => cases e; exact trivial
  | ok a => exact hf a

theorem forall2_segRel_refl (l : List JVal) : List.Forall₂ segRel l l := by
  induction l with
  | nil => exact List.Forall₂.nil
  | cons a t ih => exact List.Forall₂.cons ⟨rfl, rfl⟩ ih

theorem forall2_segRel_append {l1 l2 l3 l4 : List JVal}
    (h1 : List.Forall₂ segRel l1 l2) (h2 : List.Forall₂ segRel l3 l4) :
    List.Forall₂ segRel (l1 ++ l3) (l2 ++ l4) := by
  induction h1 with
  | nil => exact h2
  | cons hr ht ih => exact List.Forall₂.cons hr ih

theorem forall2_scrub_map {s1 s2 : List JVal}
    (h : List.Forall₂ segRel s1 s2) : s1.map scrubSeg = s2.map scrubSeg := by
  induction h with
  | nil => rfl
  | cons hr ht ih => simp only [List.map_cons, hr.1, ih]

theorem photoSegments_rel (t1 t2 : String) (m : List (String × JVal)) :
    segsRel (photoSegments t1 m) (photoSegments t2 m) := by
  unfold photoSegments
  by_cases hk : hasKey m "photo" = true
  · simp only [if_pos hk]
    cases h1 : pyLastElem (lookupD m "photo" JVal.jnull) with
    | error e => cases e; exact trivial
    | ok photo =>
      simp only [ok_bind]
      cases h2 : pyGetItem photo "file_id" with
      | error e => cases e; exact trivial
      | ok fid =>
        simp only [ok_bind]
        cases h3 : pyGetD photo "file_path" JVal.jnull with
        | error e => cases e; exact trivial
        | ok fp =>
              exact segsRel_ok (List.Forall₂.cons ⟨rfl, rfl⟩ List.Forall₂.nil)
  · simp only [if_neg hk]
    exact segsRel_ok List.Forall₂.nil

theorem videoSegments_rel (t1 t2 : String) (m : List (String × JVal)) :
    segsRel (videoSegments t1 m) (videoSegments t2 m) := by
  unfold videoSegments
  by_cases hk : hasKey m "video" = true
  · simp only [if_pos hk]
    cases h1 : pyGetItem (lookupD m "video" JVal.jnull) "file_id" with
    | error e => cases e; exact trivial
    | ok fid =>
      simp only [ok_bind]
      cases h2 : pyGetD (lookupD m "video" JVal.jnull) "file_path" JVal.jnull with
      | error e => cases e; exact trivial
      | ok fp =>
        simp only [ok_bind]
        cases h3 : pyGetD (lookupD m "video" JVal.jnull) "duration" (JVal.jint 0) with
        | error e => cases e; exact trivial
        | ok dur =>
          simp only [ok_bind]
          cases h4 : pyGetD (lookupD m "video" JVal.jnull) "width" (JVal.jint 0) with
          | error e => cases e; exact trivial
          | ok w =>
            simp only [ok_bind]
            cases h5 : pyGetD (lookupD m "video" JVal.jnull) "height" (JVal.jint 0) with
            | error e => cases e; exact trivial
            | ok hgt =>
              exact segsRel_ok (List.Forall₂.cons ⟨rfl, rfl⟩ List.Forall₂.nil)
  · simp only [if_neg hk]
    exact segsRel_ok List.Forall₂.nil

theorem voiceSegments_rel (t1 t2 : String) (m : List (String × JVal)) :
    segsRel (voiceSegments t1 m) (voiceSegments t2 m) := by
  unfold voiceSegments
  by_cases hk : hasKey m "voice" = true
  · simp only [if_pos hk]
    cases h1 : pyGetItem (lookupD m "voice" JVal.jnull) "file_id" with
    | error e => cases e; exact trivial
    | ok fid =>
      simp only [ok_bind]
      cases h2 : pyGetD (lookupD m "voice" JVal.jnull) "file_path" JVal.jnull with
      | error e => cases e; exact trivial
      | ok fp =>
        simp only [ok_bind]
        cases h3 : pyGetD (lookupD m "voice" JVal.jnull) "duration" (JVal.jint 0) with
        | error e => cases e; exact trivial
        | ok dur =>
              exact segsRel_ok (List.Forall₂.cons ⟨rfl, rfl⟩ List.Forall₂.nil)
  · simp only [if_neg hk]
    exact segsRel_ok List.Forall₂.nil

theorem audioSegments_rel (t1 t2 : String) (m : List (String × JVal)) :
    segsRel (audioSegments t1 m) (audioSegments t2 m) := by
  unfold audioSegments
  by_cases hk : hasKey m "audio" = true
  · simp only [if_pos hk]
    cases h1 : pyGetItem (lookupD m "audio" JVal.jnull) "file_id" with
    | error e => cases e; exact trivial
    | ok fid =>
      simp only [ok_bind]
      cases h2 : pyGetD (lookupD m "audio" JVal.jnull) "file_path" JVal.jnull with
      | error e => cases e; exact trivial
      | ok fp =>
        simp only [ok_bind]
        cases h3 : pyGetD (lookupD m "audio" JVal.jnull) "duration" (JVal.jint 0) with
        | error e => cases e; exact trivial
        | ok dur =>
          simp only [ok_bind]
          cases h4 : pyGetD (lookupD m "audio" JVal.jnull) "title" (JVal.jstr "") with
          | error e => cases e; exact trivial
          | ok title =>
            simp only [ok_bind]
            cases h5 : pyGetD (lookupD m "audio" JVal.jnull) "performer" (JVal.jstr "") with
            | error e => cases e; exact trivial
            | ok performer =>
              exact segsRel_ok (List.Forall₂.cons ⟨rfl, rfl⟩ List.Forall₂.nil)
  · simp only [if_neg hk]
    exact segsRel_ok List.Forall₂.nil

theorem documentSegments_rel (t1 t2 : String) (m : List (String × JVal)) :
    segsRel (documentSegments t1 m) (documentSegments t2 m) := by
  unfold documentSegments
  by_cases hk : hasKey m "document" = true
  · simp only [if_pos hk]
    cases h1 : pyGetItem (lookupD m "document" JVal.jnull) "file_id" with
    | error e => cases e; exact trivial
    | ok fid =>
      simp only [ok_bind]
      cases h2 : pyGetD (lookupD m "document" JVal.jnull) "file_path" JVal.jnull with
      | error e => cases e; exact trivial
      | ok fp =>
        simp only [ok_bind]
        cases h3 : pyGetD (lookupD m "document" JVal.jnull) "file_name" (JVal.jstr "") with
        | error e => cases e; exact trivial
        | ok fname =>
          simp only [ok_bind]
          cases h4 : pyGetD (lookupD m "document" JVal.jnull) "file_size" (JVal.jint 0) with
          | error e => cases e; exact trivial
          | ok fsize =>
            simp only [ok_bind]
            cases h5 : pyGetD (lookupD m "document" JVal.jnull) "mime_type" (JVal.jstr "") with
            | error e => cases e; exact trivial
            | ok mime =>
              exact segsRel_ok (List.Forall₂.cons ⟨rfl, rfl⟩ List.Forall₂.nil)
  · simp only [if_neg hk]
    exact segsRel_ok List.Forall₂.nil

theorem stickerSegments_rel (t1 t2 : String) (m : List (String × JVal)) :
    segsRel (stickerSegments t1 m) (stickerSegments t2 m) := by
  unfold stickerSegments
  by_cases hk : hasKey m "sticker" = true
  · simp only [if_pos hk]
    cases h1 : pyGetItem (lookupD m "sticker" JVal.jnull) "file_id" with
    | error e => cases e; exact trivial
    | ok fid =>
      simp only [ok_bind]
      cases h2 : pyGetD (lookupD m "sticker" JVal.jnull) "file_path" JVal.jnull with
      | error e => cases e; exact trivial
      | ok fp =>
              exact segsRel_ok (List.Forall₂.cons ⟨rfl, rfl⟩ List.Forall₂.nil)
  · simp only [if_neg hk]
    exact segsRel_ok List.Forall₂.nil

theorem withReplySegment_rel {m : List (String × JVal)} {s1 s2 : List JVal}
    (h : List.Forall₂ segRel s1 s2) :
    segsRel (withReplySegment m s1) (withReplySegment m s2) := by
  unfold withReplySegment
  by_cases hk : hasKey m "reply_to_message" = true
  · simp only [if_pos hk]
    cases h1 : pyGetItem (lookupD m "reply_to_message" JVal.jnull) "message_id" with
    | error e => cases e; exact trivial
    | ok mid =>
      simp only [ok_bind]
      cases h2 : pyGetD (lookupD m "reply_to_message" JVal.jnull) "from" (JVal.jobj []) with
      | error e => cases e; exact trivial
      | ok fromUser =>
        simp only [ok_bind]
        cases h3 : pyGetD fromUser "id" (JVal.jstr "") with
        | error e => cases e; exact trivial
        | ok uid =>
              exact segsRel_ok (List.Forall₂.cons ⟨rfl, rfl⟩ h)
  · simp only [if_neg hk]
    exact segsRel_ok h

theorem parseMessageContent_rel (t1 t2 : String) (message : JVal) :
    segsRel (parseMessageContent t1 message) (parseMessageContent t2 message) := by
  cases message with
  | jobj m =>
    unfold parseMessageContent
    refine exceptRel_bind (photoSegments_rel t1 t2 m) ?_
    intro ps1 ps2 hps
    refine exceptRel_bind (videoSegments_rel t1 t2 m) ?_
    intro vs1 vs2 hvs
    refine exceptRel_bind (voiceSegments_rel t1 t2 m) ?_
    intro vo1 vo2 hvo
    refine exceptRel_bind (audioSegments_rel t1 t2 m) ?_
    intro au1 au2 hau
    refine exceptRel_bind (documentSegments_rel t1 t2 m) ?_
    intro ds1 ds2 hds
    refine exceptRel_bind (stickerSegments_rel t1 t2 m) ?_
    intro ss1 ss2 hss
    refine exceptRel_bind (withReplySegment_rel ?_) ?_
    · exact forall2_segRel_append (forall2_segRel_append
        (forall2_segRel_append (forall2_segRel_append (forall2_segRel_append
          (forall2_segRel_append (forall2_segRel_refl (textSegments m)) hps)
            hvs) hvo) hau) hds) hss
    · intro w1 w2 hw
      refine exceptRel_bind_eq rfl ?_
      intro n
      exact segsRel_ok (forall2_segRel_append hw (forall2_segRel_refl n))
  | jnull => exact trivial
  | jbool b => exact trivial
  | jint n => exact trivial
  | jstr s => exact trivial
  | jarr a => exact trivial

theorem altParts_congr {s1 s2 : List JVal} (h : List.Forall₂ segRel s1 s2) :
    ∀ acc : List JVal,
      s1.foldlM (fun acc seg => do
        let t ← altToken seg
        pure (acc ++ t)) acc =
      s2.foldlM (fun acc seg => do
        let t ← altToken seg
        pure (acc ++ t)) acc := by
  induction h with
  | nil => intro acc; rfl
  | cons hr ht ih =>
    rename_i a b l1 l2
    intro acc
    rw [List.foldlM_cons, List.foldlM_cons, hr.2]
    cases hb : altToken b with
    | error e => rfl
    | ok t => exact ih (acc ++ t)

theorem generateAltMessage_congr {s1 s2 : List JVal}
    (h : List.Forall₂ segRel s1 s2) :
    generateAltMessage s1 = generateAltMessage s2 := by
  unfold generateAltMessage
  rw [altParts_congr h]

theorem lookupKV_setMany_congr {d1 d2 : List (String × JVal)}
    (us : List (String × JVal)) (k : String)
    (h : lookupKV d1 k = lookupKV d2 k) :
    lookupKV (setMany d1 us) k = lookupKV (setMany d2 us) k := by
  induction us generalizing d1 d2 with
  | nil => exact h
  | cons u rest ih =>
    rw [setMany_cons, setMany_cons]
    apply ih
    by_cases hk : u.1 = k
    · rw [hk, lookupKV_setK_self, lookupKV_setK_self]
    · rw [lookupKV_setK_ne _ _ _ _ hk, lookupKV_setK_ne _ _ _ _ hk, h]

theorem messageFromUpds_keys {msg fromUpds : List (String × JVal)}
    (h : messageFromUpds msg = .ok fromUpds) :
    ∀ q ∈ fromUpds, q.1 = "user_id" ∨ q.1 = "user_nickname" := by
  intro q hq
  unfold messageFromUpds at h
  split at h
  · split at h
    · cases h
      simp at hq
      rcases hq with hq | hq <;> subst hq <;> simp
    · exact Except.noConfusion h
  · cases h
    simp at hq

theorem messageFromUpds_rel (msg : List (String × JVal)) :
    exceptRel (fun l1 l2 => l1 = l2 ∧
        ∀ q ∈ l1, q.1 = "user_id" ∨ q.1 = "user_nickname")
      (messageFromUpds msg) (messageFromUpds msg) := by
  cases h : messageFromUpds msg with
  | error e => cases e; exact trivial
  | ok l => exact ⟨rfl, messageFromUpds_keys h⟩

theorem eventScrubRel_ok {e1 e2 : Event}
    (h : ∀ k, lookupKV (scrubEvent e1) k = lookupKV (scrubEvent e2) k) :
    eventScrubRel (.ok e1) (.ok e2) := h

theorem scrub_pw_cons2 {base : Event} {p1 p2 : String × JVal}
    {post : List (String × JVal)} {s1 s2 : List JVal}
    (hpost : ∀ p ∈ post, p.1 ≠ "message")
    (hs : s1.map scrubSeg = s2.map scrubSeg) :
    ∀ k, lookupKV (scrubEvent (setMany base
        (p1 :: p2 :: ("message", JVal.jarr s1) :: post))) k =
      lookupKV (scrubEvent (setMany base
        (p1 :: p2 :: ("message", JVal.jarr s2) :: post))) k := by
  have hC : ∀ s : List JVal,
      setMany base (p1 :: p2 :: ("message", JVal.jarr s) :: post) =
      setMany (setK (setK (setK base p1.1 p1.2) p2.1 p2.2) "message"
        (JVal.jarr s)) post := fun s => rfl
  have ha : ∀ s : List JVal,
      lookupKV (setMany (setK (setK (setK base p1.1 p1.2) p2.1 p2.2)
        "message" (JVal.jarr s)) post) "message" = some (JVal.jarr s) := by
    intro s
    rw [lookupKV_setMany_not_mem _ _ _ hpost, lookupKV_setK_self]
  have hscr : ∀ s : List JVal,
      scrubEvent (setMany (setK (setK (setK base p1.1 p1.2) p2.1 p2.2)
          "message" (JVal.jarr s)) post) =
      setK (setMany (setK (setK (setK base p1.1 p1.2) p2.1 p2.2)
          "message" (JVal.jarr s)) post) "message"
        (JVal.jarr (s.map scrubSeg)) := by
    intro s
    unfold scrubEvent
    rw [ha s]
  intro k
  rw [hC s1, hC s2, hscr s1, hscr s2]
  by_cases hk : k = "message"
  · subst hk
    rw [lookupKV_setK_self, lookupKV_setK_self, hs]
  · rw [lookupKV_setK_ne _ _ _ _ (fun hh => hk hh.symm),
      lookupKV_setK_ne _ _ _ _ (fun hh => hk hh.symm)]
    apply lookupKV_setMany_congr
    rw [lookupKV_setK_ne _ _ _ _ (fun hh => hk hh.symm),
      lookupKV_setK_ne _ _ _ _ (fun hh => hk hh.symm)]

theorem messageCore_scrub (now : Int) (t1 t2 : String) (message : JVal)
    (isEdited : Bool) (base : Event) :
    eventScrubRel (messageCore now t1 message isEdited base)
      (messageCore now t2 message isEdited base) := by
  cases message with
  | jobj msg =>
    simp only [messageCore]
    cases hchat : lookupD msg "chat" (JVal.jobj []) with
    | jobj chatf =>
      refine exceptRel_bind (parseMessageContent_rel t1 t2 (.jobj msg)) ?_
      intro s1 s2 hs
      refine exceptRel_bind_eq (generateAltMessage_congr hs) ?_
      intro alt
      refine exceptRel_bind (messageFromUpds_rel msg) ?_
      intro f1 f2 hf
      obtain ⟨hfe, hfk⟩ := hf
      subst hfe
      refine eventScrubRel_ok (scrub_pw_cons2 ?_ (forall2_scrub_map hs))
      intro p hp
      simp only [List.append_eq, List.mem_cons, List.mem_append,
        List.nil_append, List.not_mem_nil, or_false] at hp
      rcases hp with ((((hp | hp) | hp) | hp) | hp)
      · subst hp
        simp
      · rcases hfk p hp with h | h <;> rw [h] <;> decide
      · split at hp
        · simp at hp
          subst hp
          simp
        · simp at hp
      · subst hp
        simp
      · rcases mem_ite_singleton hp with hp | hp <;> subst hp <;> simp
    | jnull => exact trivial
    | jbool b => exact trivial
    | jint n => exact trivial
    | jstr s => exact trivial
    | jarr a => exact trivial
  | jnull => exact trivial
  | jbool b => exact trivial
  | jint n => exact trivial
  | jstr s => exact trivial
  | jarr a => exact trivial

theorem handleMessage_scrub (now : Int) (t1 t2 : String)
    (raw : List (String × JVal)) (base : Event) :
    eventScrubRel (handleMessage now t1 raw base)
      (handleMessage now t2 raw base) := by
  unfold handleMessage
  by_cases hc : (hasKey raw "message" || hasKey raw "edited_message" ||
      hasKey raw "channel_post" || hasKey raw "edited_channel_post") = true
  · simp only [if_pos hc]
    exact messageCore_scrub now t1 t2 _ _ base
  · simp only [if_neg hc]
    exact fun k => rfl

theorem convScrubEq_refl (r : Except Unit (Option Event)) :
    convScrubEq r r := by
  cases r with
  | error e => cases e; exact trivial
  | ok o =>
    cases o with
    | none => exact trivial
    | some e => exact fun k => rfl

/-- **C8** (amended).  Unconditional credential confidentiality fails — see
`c8_counterexample`: the converter itself writes the bot credential into
the `url` field of media segments even when the input nowhere contains it.
The amended guarantee proven here: the `url` fields of message segments are
the only sink — conversion under two different credentials is
indistinguishable (same raise/`None` behavior, and field-by-field equal
events) once those `url` fields are nulled by `scrubSeg`. -/
theorem c8_amended (now : Int) (t1 t2 : String) (v : JVal) :
    convScrubEq (convert now t1 v) (convert now t2 v) := by
  cases v with
  | jobj raw =>
    simp only [convert]
    by_cases hn : isNull (lookupD raw "update_id" JVal.jnull) = true
    · simp only [if_pos hn]
      exact trivial
    · simp only [if_neg hn]
      cases hd : detectEventType raw with
      | mk fst snd =>
        cases fst with
        | none => exact fun k => rfl
        | some eventType =>
          by_cases h1 : eventType = "message"
          · simp only [if_pos h1]
            refine exceptRel_bind (handleMessage_scrub now t1 t2 raw _) ?_
            intro e1 e2 he
            exact he
          · simp only [if_neg h1]
            by_cases h2 : eventType = "notice"
            · simp only [if_pos h2]
              exact convScrubEq_refl _
            · simp only [if_neg h2]
              by_cases h3 : eventType = "request"
              · simp only [if_pos h3]
                exact convScrubEq_refl _
              · simp only [if_neg h3]
                exact convScrubEq_refl _
  | jnull => exact trivial
  | jbool b => exact trivial
  | jint n => exact trivial
  | jstr s => exact trivial
  | jarr a => exact trivial

end TGAdapter
